import Mathlib

/-!
Shallow embedding of the terminal-portfolio application (Go sources under
src/tui/model.go and the content/markdown helper file) together with proofs
about its navigation state machine, content provider and render adapter.

Conventions of the embedding:
* Go `int` is modelled as `Int`; list indexing with a possibly negative index
  is modelled by `goIndex`, whose `none` result stands for a Go runtime panic.
* Fallible computations return `Option`; a `none` anywhere in a step stands
  for a crash of that step.
* External libraries (glamour rendering, lipgloss styling) are abstracted as
  an `Env` of opaque string transformers; the bubbles viewport is small and
  is modelled directly (`Viewport`).
* Go stdlib string and sorting helpers are modelled by `go...` functions that
  follow the documented stdlib semantics; `sort.Slice` is a parameter because
  Go documents it as an arbitrary (not necessarily stable) sorting function.
-/

/-- Fuel-driven scanner behind `goSplit`: splits a character list at every
leftmost non-overlapping occurrence of the (non-empty) separator. The fuel
starts at the list length, which the scan never exhausts. -/
def goSplitFuel (sep : List Char) : Nat → List Char → List (List Char)
  | _, [] => [[]]
  | 0, s => [s]
  | fuel + 1, c :: cs =>
    if sep.isPrefixOf (c :: cs) then
      [] :: goSplitFuel sep fuel ((c :: cs).drop sep.length)
    else
      match goSplitFuel sep fuel cs with
      | [] => [[c]]
      | a :: as => (c :: a) :: as

/-- Semantics of Go strings.Split for a non-empty separator (every separator
this program passes is non-empty). -/
def goSplit (s sep : String) : List String :=
  (goSplitFuel sep.toList s.toList.length s.toList).map String.mk

/-- Semantics of Go strings.HasPrefix. -/
def goHasPrefix (s pre : String) : Bool :=
  pre.toList.isPrefixOf s.toList

/-- Semantics of Go strings.HasSuffix. -/
def goHasSuffix (s suf : String) : Bool :=
  suf.toList.isSuffixOf s.toList

/-- Semantics of Go strings.TrimSpace. -/
def goTrimSpace (s : String) : String :=
  String.mk (((s.toList.dropWhile Char.isWhitespace).reverse.dropWhile
    Char.isWhitespace).reverse)

/-- Semantics of Go strings.SplitN with positive count n: at most n pieces,
the last piece holds the unsplit remainder. -/
def goSplitN (s sep : String) (n : Nat) : List String :=
  let parts := goSplit s sep
  if parts.length ≤ n then parts
  else parts.take (n - 1) ++ [String.intercalate sep (parts.drop (n - 1))]

/-- Semantics of Go strings.Trim: remove all leading and trailing characters
that occur in the cutset. -/
def goTrim (s cutset : String) : String :=
  let cs := cutset.toList
  String.mk (((s.toList.dropWhile (fun c => cs.contains c)).reverse.dropWhile
    (fun c => cs.contains c)).reverse)

/-- Semantics of Go strings.TrimSuffix. -/
def goTrimSuffix (s suf : String) : String :=
  if suf ≠ "" ∧ goHasSuffix s suf = true then
    String.mk (s.toList.take (s.length - suf.length))
  else s

/-- Semantics of Go filepath.Ext: the suffix of the final path element starting
at the last dot (empty when there is no dot). -/
def goExt (s : String) : String :=
  let rest := (s.toList.reverse.takeWhile (fun c => c ≠ '.')).reverse
  if rest.length = s.length then "" else String.mk ('.' :: rest)

/-- Go slice indexing with an `Int` index; `none` models the runtime panic
raised for an out-of-range (in particular negative) index. -/
def goIndex {α : Type} (l : List α) (i : Int) : Option α :=
  if 0 ≤ i then l.get? i.toNat else none

/-- A calendar date as produced by Go time.Parse of layout 2006-01-02
(midnight UTC; only the date part is relevant to this program). -/
structure Date where
  year : Nat
  month : Nat
  day : Nat
deriving DecidableEq

/-- Semantics of Go t.After(u) on dates produced by this program:
strict lexicographic comparison of (year, month, day). -/
def Date.after (a b : Date) : Bool :=
  (b.year < a.year) ||
  (a.year = b.year && (b.month < a.month ||
    (a.month = b.month && b.day < a.day)))

/-- Two-digit zero padding, as produced by Go layout fields 01 and 02. -/
def pad2 (n : Nat) : String :=
  if n < 10 then "0" ++ toString n else toString n

/-- Semantics of Go date.Format with layout 2006-01-02. -/
def Date.format (d : Date) : String :=
  toString d.year ++ "-" ++ pad2 d.month ++ "-" ++ pad2 d.day

/-- Day count of a month, with the Gregorian leap-year rule, matching the
range check done by Go time.Parse. -/
def daysInMonth (y m : Nat) : Nat :=
  if m = 2 then (if y % 4 = 0 ∧ (y % 100 ≠ 0 ∨ y % 400 = 0) then 29 else 28)
  else if m = 4 ∨ m = 6 ∨ m = 9 ∨ m = 11 then 30 else 31

/-- Digit value of a character. -/
def digitVal (c : Char) : Nat := c.toNat - 48

/-- Semantics of Go time.Parse with layout 2006-01-02: exactly four year
digits, a dash, two month digits, a dash, two day digits, with month and day
range checks; `none` models the parse error. -/
def parseDate (s : String) : Option Date :=
  match s.toList with
  | [y1, y2, y3, y4, c1, m1, m2, c2, d1, d2] =>
    if c1 = '-' ∧ c2 = '-' ∧ y1.isDigit ∧ y2.isDigit ∧ y3.isDigit ∧ y4.isDigit ∧
        m1.isDigit ∧ m2.isDigit ∧ d1.isDigit ∧ d2.isDigit then
      let y := ((digitVal y1 * 10 + digitVal y2) * 10 + digitVal y3) * 10 + digitVal y4
      let mo := digitVal m1 * 10 + digitVal m2
      let d := digitVal d1 * 10 + digitVal d2
      if 1 ≤ mo ∧ mo ≤ 12 ∧ 1 ≤ d ∧ d ≤ daysInMonth y mo then some ⟨y, mo, d⟩
      else none
    else none
  | _ => none

/-- The YAML frontmatter fields (content helper file, type FrontMatter). -/
structure FrontMatter where
  title : String := ""
  summary : String := ""
  date : String := ""
  tags : List String := []
  readTime : String := ""
  author : String := ""
  published : Bool := false
deriving DecidableEq

/-- Fold step of the simple YAML parsing loop inside parseFrontMatter. -/
def parseFrontMatterLine (fm : FrontMatter) (line : String) : FrontMatter :=
  let line := goTrimSpace line
  if line = "" then fm
  else
    match goSplitN line ":" 2 with
    | [k, v] =>
      let key := goTrimSpace k
      let value := goTrim (goTrimSpace v) "\""
      if key = "title" then { fm with title := value }
      else if key = "summary" then { fm with summary := value }
      else if key = "date" then { fm with date := value }
      else if key = "readTime" then { fm with readTime := value }
      else if key = "author" then { fm with author := value }
      else if key = "published" then { fm with published := value = "true" }
      else if key = "tags" then
        let value := goTrim value "[]"
        if value ≠ "" then
          { fm with tags := (goSplit value ",").map (fun t => goTrim (goTrimSpace t) "\"") }
        else fm
      else fm
    | _ => fm

/-- parseFrontMatter: extracts the YAML frontmatter and the body from a
markdown file; `none` models the invalid-frontmatter-format error. -/
def parseFrontMatter (content : String) : Option (FrontMatter × String) :=
  if ¬ goHasPrefix content "---\n" = true then some ({}, content)
  else
    match goSplitN content "---\n" 3 with
    | [_, frontmatterContent, markdownContent] =>
      some ((goSplit frontmatterContent "\n").foldl parseFrontMatterLine {},
        markdownContent)
    | _ => none

/-- BlogPost: a parsed blog post with metadata (content helper file). -/
structure BlogPost where
  id : String
  title : String
  summary : String
  content : String
  date : Date
  tags : List String
  readTime : String
  author : String
  published : Bool
  filePath : String
deriving DecidableEq

/-- One directory entry as seen by ioutil.ReadDir; `content = none` models a
file whose ReadFile call fails. -/
structure DirEntry where
  name : String
  isDir : Bool
  content : Option String
deriving DecidableEq

/-- The filesystem conditions GetBlogPosts depends on: Getwd success, blog
directory existence, ReadDir success, and the directory listing. -/
structure Fs where
  getwdOk : Bool
  dirExists : Bool
  readDirOk : Bool
  files : List DirEntry
deriving DecidableEq

/-- readMarkdownFile: reads and parses one markdown file. `now` is the date
substituted when the frontmatter date does not parse. `none` models the error
return (unreadable file or malformed frontmatter delimiters). -/
def readMarkdownFile (now : Date) (name : String) (content : Option String) :
    Option BlogPost :=
  match content with
  | none => none
  | some content =>
    match parseFrontMatter content with
    | none => none
    | some (fm, markdownContent) =>
      let date := (parseDate fm.date).getD now
      let id := goTrimSuffix name (goExt name)
      some { id := id, title := fm.title, summary := fm.summary,
             content := markdownContent, date := date, tags := fm.tags,
             readTime := fm.readTime, author := fm.author,
             published := fm.published, filePath := name }

/-- The file loop of GetBlogPosts: skip directories, keep .md files that
parse and are published, in directory order. -/
def collectPosts (now : Date) (files : List DirEntry) : List BlogPost :=
  files.foldl (fun posts file =>
    if file.isDir = true then posts
    else if goHasSuffix file.name ".md" = true then
      match readMarkdownFile now file.name file.content with
      | none => posts
      | some post => if post.published = true then posts ++ [post] else posts
    else posts) []

/-- BlogEntry: the compatibility record handed to the Model (model.go). -/
structure BlogEntry where
  title : String
  summary : String
  content : String
  date : String
deriving DecidableEq
def homeMarkdown : String :=
  "# 🚀 Welcome to Arpan\x27s Terminal Portfolio!\n\nHi there! I\x27m **Arpan Pandey**, a passionate tech enthusiast and developer.\n\n## 🔗 Connect with me\n\n- **GitHub:** [https://github.com/Arpan-206](https://github.com/Arpan-206)\n- **LinkedIn:** [https://www.linkedin.com/in/arpan-pandey/](https://www.linkedin.com/in/arpan-pandey/)\n\n✨ Navigate using arrow keys to explore my projects and blog posts!\n\n💡 This portfolio is built with **Go**, **Bubble Tea**, and lots of ❤️\n\n## 🎯 What you\x27ll find here\n\n- My latest projects and open source contributions\n- Technical blog posts and tutorials\n- Information about my skills and experience  \n- Ways to get in touch and collaborate\n\n## 🌟 Features of this terminal portfolio\n\n- **Fully keyboard navigable** interface\n- **Responsive design** that adapts to your terminal size\n- **Beautiful styling** with Lipgloss and Glamour\n- **Smooth scrolling** for long content\n- **Interactive blog post viewer** with markdown rendering\n\n## ⚡ Quick navigation tips\n\n- Use **← →** arrows to switch between main sections\n- Use **↑ ↓** arrows to navigate within sections\n- Press **Enter** to open blog posts\n- Press **Backspace** to go back from blog posts\n- Press **q** or **Ctrl+C** to quit\n\n---\n\n**Happy exploring!** 🎉"

def aboutMarkdown : String :=
  "# 👋 About Arpan\n\nI\x27m a passionate software developer and tech enthusiast with a love for creating beautiful, functional applications. My journey in technology spans across various domains, always driven by curiosity and the desire to solve complex problems.\n\n## 🎓 Background & Education\n- **Computer Science and Engineering**\n- **Full-stack development** experience across multiple technologies\n- **Continuous learner**, always exploring new technologies and methodologies\n- **Active contributor** to open source projects and tech communities\n\n## 💻 Technical Expertise\n\n### 🌐 Frontend Development\n- **React, Next.js, Vue.js** - Modern JavaScript frameworks\n- **TypeScript** for type-safe development\n- **HTML5, CSS3, Sass/SCSS** for styling\n- **Responsive design** and accessibility best practices\n- **State management** with Redux, Zustand, Context API\n\n### ⚙️ Backend Development\n- **Go** - Systems programming and web services\n- **Node.js, Express.js** - JavaScript backend development\n- **Python, Django, FastAPI** - Rapid development and data processing\n- **RESTful APIs and GraphQL**\n- **Microservices architecture** and distributed systems\n\n### 🗄️ Database Technologies\n- **PostgreSQL, MySQL** - Relational databases\n- **MongoDB, Redis** - NoSQL solutions\n- **Database design** and optimization\n- **Data modeling** and migration strategies\n\n### ☁️ Cloud & DevOps\n- **AWS, Google Cloud Platform** - Cloud infrastructure\n- **Docker, Kubernetes** - Containerization and orchestration\n- **CI/CD pipelines** with GitHub Actions, GitLab CI\n- **Infrastructure as Code** with Terraform\n- **Monitoring and logging** solutions\n\n### 🛠️ Development Tools & Practices\n- **Git version control** and collaborative workflows\n- **Test-driven development (TDD)** and automated testing\n- **Code review processes** and pair programming\n- **Agile methodologies** and project management\n- **Performance optimization** and security best practices\n\n## 🌟 Philosophy & Approach\n\nI believe in writing clean, maintainable code that not only solves problems but is also a joy to work with. Every project, whether it\x27s a complex enterprise application or a simple CLI tool, deserves attention to detail and thoughtful architecture.\n\n**My approach emphasizes:**\n- User-centered design and experience\n- Scalable and maintainable code architecture\n- Collaborative development and knowledge sharing\n- Continuous learning and adaptation to new technologies\n- Open source contribution and community building\n\n## 🚀 Current Focus & Interests\n- Building developer tools that improve productivity\n- Exploring systems programming with Go and Rust\n- Contributing to open source projects\n- Terminal applications and command-line interfaces\n- Modern web technologies and frameworks\n- Machine learning and AI applications\n- Mentoring junior developers and sharing knowledge\n\n## 🎯 Goals & Aspirations\n- Create impactful software that solves real-world problems\n- Build and maintain high-quality open source projects\n- Foster inclusive and collaborative development communities\n- Continue learning and staying current with technology trends\n- Share knowledge through writing, speaking, and mentoring\n\n---\n\nWhen I\x27m not coding, you might find me exploring new technologies, contributing to open source projects, writing technical blogs, or engaging with the developer community. I\x27m always excited to learn something new and share that knowledge with others.\n\n**Let\x27s build something amazing together!** 🎉"

def contactMarkdown : String :=
  "# 📬 Get In Touch\n\nI\x27m always excited to connect with fellow developers, potential collaborators, or anyone interested in technology! Whether you want to discuss a project, share ideas, or just have a friendly chat about development, I\x27d love to hear from you.\n\n## 🔗 Find Me Online\n\n### 🐙 GitHub\n**[https://github.com/Arpan-206](https://github.com/Arpan-206)**\n- Check out my repositories and contributions\n- See my latest projects and code samples\n- Contribute to open source projects together\n- Star repositories you find interesting!\n\n### 💼 LinkedIn\n**[https://www.linkedin.com/in/arpan-pandey/](https://www.linkedin.com/in/arpan-pandey/)**\n- Professional background and experience\n- Connect for networking and opportunities\n- Endorse skills and get recommendations\n- Stay updated with my professional journey\n\n### 📧 Email\n**Best reached via LinkedIn**  \nFor direct communication, please connect with me on LinkedIn first. I\x27m responsive and check messages regularly!\n\n---\n\n## 💼 Professional Opportunities\n\n### 🤝 Open to Collaboration\n- Open source project contributions\n- Technical writing and documentation\n- Code reviews and pair programming sessions\n- Speaking at tech events and conferences\n- Mentoring and knowledge sharing\n\n### 💻 Freelance & Contract Work\n- Full-stack web application development\n- API design and backend services\n- Terminal applications and CLI tools\n- Code audits and technical consulting\n- DevOps and infrastructure setup\n\n### 🏢 Full-time Positions\n- Software Engineer / Senior Software Engineer\n- Full-stack Developer positions\n- Backend/Systems Engineer roles\n- DevOps Engineer opportunities\n- Technical Lead positions\n\n---\n\n## 🎯 Areas of Interest\n\n### 🛠️ Technology Domains\n- Go, Rust, and systems programming\n- Modern JavaScript/TypeScript ecosystems\n- Cloud-native applications and microservices\n- Developer tooling and CLI applications\n- Database design and optimization\n- API development and integration\n\n### 🌍 Industry Sectors\n- Developer tools and productivity software\n- Financial technology (FinTech)\n- Healthcare technology solutions\n- Educational technology platforms\n- Open source and community-driven projects\n- Startups and innovative tech companies\n\n### 💡 Project Types\n- Greenfield projects with modern tech stacks\n- Legacy system modernization and migration\n- Performance optimization and scalability improvements\n- Integration projects and API development\n- Automation and workflow improvement tools\n\n---\n\n## 🤔 What I\x27m Looking For\n\n### 🎯 In Collaborations\n- Passionate and skilled team members\n- Projects that make a positive impact\n- Opportunities to learn and grow\n- Respectful and inclusive work environments\n- Clear communication and shared goals\n\n### 💪 In Roles\n- Challenging technical problems to solve\n- Opportunities for professional growth\n- Mentorship and knowledge sharing culture\n- Work-life balance and flexibility\n- Competitive compensation and benefits\n\n---\n\n## 📅 Let\x27s Connect!\n\nWhether you\x27re interested in:\n- Discussing potential collaborations\n- Exploring job opportunities\n- Getting technical advice or mentorship\n- Sharing ideas about technology and development\n- Just having a friendly chat about coding\n\nI\x27m always happy to connect! The best way to reach me is through LinkedIn, where I\x27m active and responsive. Let\x27s build something amazing together!\n\n🚀 **Looking forward to hearing from you!** 🎉\n\n---\n\n**P.S.** If you enjoyed this terminal portfolio, feel free to star it on GitHub or share it with others who might appreciate terminal-based applications. Your support means a lot! ⭐"

def fallbackContent1 : String :=
  "# Building Terminal UIs with Bubble Tea\n\nBubble Tea is an amazing framework for building terminal user interfaces in Go. It follows the Elm architecture pattern, making it easy to reason about state management and updates.\n\n## Key Features\n\n- **Reactive programming model**: Based on the Elm Architecture\n- **Built-in support**: Mouse and keyboard input handling\n- **Flexible styling**: Integration with Lipgloss for beautiful UIs\n- **Component-based**: Modular architecture for reusable components\n\n## Getting Started\n\nTo get started with Bubble Tea, you need to understand three core concepts:\n\n1. **Model**: Represents your application state\n2. **Update**: Handles messages and updates the model  \n3. **View**: Renders the model to the terminal\n\nThis is a fallback version of the blog post. Please check that your markdown files are properly configured in the `content/blog` directory."

def fallbackContent2 : String :=
  "# Modern Web Development Trends\n\nThe web development landscape continues to evolve rapidly with new frameworks and tools emerging regularly.\n\n## Key Trends\n\n- **React Server Components**: Zero bundle impact rendering\n- **Edge Computing**: Bringing computation closer to users\n- **TypeScript Everywhere**: Type safety across the full stack\n- **AI Integration**: Copilot and AI-powered development tools\n\n## Popular Frameworks\n\n- **Next.js**: React with server-side rendering\n- **Nuxt**: Vue.js full-stack framework\n- **SvelteKit**: Svelte\x27s full-stack solution\n- **Remix**: Web standards focused React framework\n\nThis is a fallback version of the blog post. Please check that your markdown files are properly configured in the `content/blog` directory."

def fallbackContent3 : String :=
  "# Go vs Rust: A Developer\x27s Perspective\n\nBoth Go and Rust have gained significant traction in the systems programming space.\n\n## Go: Simplicity and Productivity\n\n**Strengths:**\n- Simple syntax and fast compilation\n- Built-in concurrency with goroutines\n- Excellent standard library\n- Great for web services and microservices\n\n## Rust: Safety and Performance  \n\n**Strengths:**\n- Memory safety without garbage collection\n- Zero-cost abstractions\n- Excellent performance\n- Growing ecosystem with Cargo\n\n## When to Choose What\n\n**Choose Go** for rapid development and team productivity.\n**Choose Rust** for maximum performance and memory safety.\n\nThis is a fallback version of the blog post. Please check that your markdown files are properly configured in the `content/blog` directory."

/-- getFallbackBlogPosts: the hardcoded fallback blog posts. -/
def getFallbackBlogPosts : List BlogEntry :=
  [{ title := "Building Terminal UIs with Bubble Tea",
     summary := "A deep dive into creating beautiful terminal applications using Charm\x27s Bubble Tea framework.",
     content := fallbackContent1,
     date := "2024-01-15" },
   { title := "Modern Web Development Trends",
     summary := "Exploring the latest trends and technologies shaping web development in 2024.",
     content := fallbackContent2,
     date := "2024-01-10" },
   { title := "Go vs Rust: A Developer\x27s Perspective",
     summary := "Comparing two modern systems programming languages from a practical standpoint.",
     content := fallbackContent3,
     date := "2024-01-05" }]

/-- GetBlogPosts: loads, filters, sorts and converts the blog posts, falling
back to the hardcoded set on any error or when nothing was found.
`sortSlice` abstracts Go sort.Slice (documented contract: some ordering of the
slice by the comparator, stability not guaranteed), applied to the comparator
posts[i].Date.After(posts[j].Date). -/
def GetBlogPosts
    (sortSlice : (BlogPost → BlogPost → Bool) → List BlogPost → List BlogPost)
    (now : Date) (fs : Fs) : List BlogEntry :=
  if fs.getwdOk = false then getFallbackBlogPosts
  else if fs.dirExists = false then getFallbackBlogPosts
  else if fs.readDirOk = false then getFallbackBlogPosts
  else
    let posts := collectPosts now fs.files
    let posts := sortSlice (fun a b => a.date.after b.date) posts
    let entries := posts.map (fun p =>
      ({ title := p.title, summary := p.summary, content := p.content,
         date := p.date.format } : BlogEntry))
    if entries.length = 0 then getFallbackBlogPosts else entries

/-- Project: a featured-project record (content helper file). -/
structure Project where
  name : String
  description : String
  tech : List String
  features : List String
  status : String
  url : String
deriving DecidableEq

/-- GetFeaturedProjects: the static featured-project list. -/
def GetFeaturedProjects : List Project :=
  [{ name := "Terminal Portfolio",
     description := "A beautiful terminal-based portfolio built with Bubble Tea",
     tech := ["Go", "Bubble Tea", "Lipgloss", "SSH"],
     features := ["Responsive design", "Keyboard navigation", "Smooth scrolling", "SSH server integration"],
     status := "Active",
     url := "https://github.com/Arpan-206/terminal-portfolio" },
   { name := "Full-Stack Web Applications",
     description := "Modern web applications using cutting-edge frameworks",
     tech := ["React", "Next.js", "Node.js", "PostgreSQL"],
     features := ["Real-time updates", "Responsive UI", "RESTful APIs", "Authentication"],
     status := "Active",
     url := "https://github.com/Arpan-206" },
   { name := "DevOps Automation Tools",
     description := "Scripts and tools for automating development workflows",
     tech := ["Python", "Bash", "Docker", "GitHub Actions"],
     features := ["CI/CD pipelines", "Automated testing", "Deployment scripts", "Infrastructure as Code"],
     status := "Active",
     url := "https://github.com/Arpan-206" },
   { name := "Machine Learning Projects",
     description := "AI/ML applications solving real-world problems",
     tech := ["Python", "TensorFlow", "PyTorch", "scikit-learn"],
     features := ["Natural language processing", "Computer vision", "Data analysis", "Model deployment"],
     status := "Active",
     url := "https://github.com/Arpan-206" },
   { name := "Mobile Applications",
     description := "Cross-platform mobile apps with native performance",
     tech := ["React Native", "Flutter", "Firebase", "SQLite"],
     features := ["Offline-first", "Real-time sync", "Push notifications", "Cross-platform UI"],
     status := "Active",
     url := "https://github.com/Arpan-206" },
   { name := "Open Source Contributions",
     description := "Contributing to various open source projects in the community",
     tech := ["Go", "JavaScript", "Python", "Rust"],
     features := ["Bug fixes", "New features", "Documentation", "Community support"],
     status := "Ongoing",
     url := "https://github.com/Arpan-206" }]

/-- Env abstracts the external rendering libraries: `render w s` is the
glamour terminal renderer built with word wrap w applied to markdown s
(`none` models a construction or rendering error), and the other fields are
the lipgloss style Render functions and JoinVertical. -/
structure Env where
  render : Int → String → Option String
  contentStyleRender : String → String
  cardStyleRender : String → String
  selectedCardStyleRender : String → String
  navbarStyleRender : String → String
  footerStyleRender : String → String
  activeNavRender : String → String
  inactiveNavRender : String → String
  viewportFrameRender : String → String
  joinVertical : List String → String

/-- Word-wrap width handed to the glamour renderer inside renderMarkdown:
the caller width minus 4 columns of padding. -/
def glamourWordWrap (width : Int) : Int := width - 4

/-- renderMarkdown: renders markdown through glamour with word wrap
width - 4, falling back to the raw content when the renderer fails. -/
def renderMarkdown (env : Env) (content : String) (width : Int) : String :=
  match env.render (glamourWordWrap width) content with
  | none => content
  | some rendered => rendered

/-- Effective display width used by renderMarkdownForDisplay: width minus 8
for padding and borders, clamped below at 40 columns. -/
def displayWidth (width : Int) : Int :=
  let dw := width - 8
  if dw < 40 then 40 else dw

/-- renderMarkdownForDisplay: renders at the clamped display width. -/
def renderMarkdownForDisplay (env : Env) (content : String) (width : Int) : String :=
  renderMarkdown env content (displayWidth width)
/-- Key: a key message as classified by the Update function. `char c` is a
single-rune key (msg.String() is that rune and msg.Runes holds it, so the
shifted-rune test of Update sees c); the other constructors are the special
keys the program reacts to, whose msg.String() values are the Go key names
and which carry no runes. -/
inductive Key where
  | char : Char → Key
  | left : Key
  | right : Key
  | up : Key
  | down : Key
  | enter : Key
  | backspace : Key
  | ctrlC : Key
  | ctrlU : Key
  | ctrlD : Key
  | pgup : Key
  | pgdown : Key
deriving DecidableEq

/-- Viewport: the bubbles viewport state used by the model (width, height,
vertical offset, content split into lines). -/
structure Viewport where
  width : Int
  height : Int
  yOffset : Int
  lines : List String
deriving DecidableEq

/-- viewport.New: fresh viewport with no content. -/
def Viewport.new (width height : Int) : Viewport :=
  { width := width, height := height, yOffset := 0, lines := [] }

/-- Maximum vertical offset: max(0, line count - height). -/
def Viewport.maxYOffset (v : Viewport) : Int :=
  max 0 ((v.lines.length : Int) - v.height)

/-- SetYOffset: clamp the requested offset into [0, maxYOffset]. -/
def Viewport.setYOffset (v : Viewport) (n : Int) : Viewport :=
  { v with yOffset := min v.maxYOffset (max 0 n) }

/-- AtTop. -/
def Viewport.atTop (v : Viewport) : Bool := v.yOffset ≤ 0

/-- AtBottom. -/
def Viewport.atBottom (v : Viewport) : Bool := v.maxYOffset ≤ v.yOffset

/-- GotoTop (no-op when already at the top). -/
def Viewport.gotoTop (v : Viewport) : Viewport :=
  if v.atTop = true then v else v.setYOffset 0

/-- GotoBottom. -/
def Viewport.gotoBottom (v : Viewport) : Viewport :=
  v.setYOffset v.maxYOffset

/-- LineDown n. -/
def Viewport.lineDown (v : Viewport) (n : Int) : Viewport :=
  if v.atBottom = true ∨ n = 0 ∨ v.lines.length = 0 then v
  else v.setYOffset (v.yOffset + n)

/-- LineUp n. -/
def Viewport.lineUp (v : Viewport) (n : Int) : Viewport :=
  if v.atTop = true ∨ n = 0 ∨ v.lines.length = 0 then v
  else v.setYOffset (v.yOffset - n)

/-- Semantics of Go strings.Split with separator made of the single newline
character, written as structural recursion so that facts about it (such as the
result never being empty) are provable. -/
def splitLinesAux : List Char → List (List Char)
  | [] => [[]]
  | c :: cs =>
    let r := splitLinesAux cs
    if c = '\n' then [] :: r
    else
      match r with
      | [] => [[c]]
      | a :: as => (c :: a) :: as

/-- String-level wrapper of `splitLinesAux`. -/
def goSplitNewline (s : String) : List String :=
  (splitLinesAux s.toList).map String.mk

/-- SetContent: normalise line endings, split into lines, and clamp the
offset to the end when the new content is shorter. -/
def Viewport.setContent (v : Viewport) (s : String) : Viewport :=
  let ls := goSplitNewline (s.replace "\r\n" "\n")
  let v := { v with lines := ls }
  if (ls.length : Int) - 1 < v.yOffset then v.gotoBottom else v

/-- The viewport Update function restricted to key messages, with the default
key map (pgdown/space/f, pgup/b, u/ctrl+u, d/ctrl+d, up/k, down/j). Keys the
map does not mention leave the viewport unchanged. -/
def Viewport.keyUpdate (v : Viewport) (k : Key) : Viewport :=
  if k = Key.pgdown ∨ k = Key.char ' ' ∨ k = Key.char 'f' then v.lineDown v.height
  else if k = Key.pgup ∨ k = Key.char 'b' then v.lineUp v.height
  else if k = Key.char 'u' ∨ k = Key.ctrlU then v.lineUp (Int.tdiv v.height 2)
  else if k = Key.char 'd' ∨ k = Key.ctrlD then v.lineDown (Int.tdiv v.height 2)
  else if k = Key.up ∨ k = Key.char 'k' then v.lineUp 1
  else if k = Key.down ∨ k = Key.char 'j' then v.lineDown 1
  else v

/-- Visible window of the viewport (viewport.View body). -/
def Viewport.view (env : Env) (v : Viewport) : String :=
  env.viewportFrameRender
    (String.intercalate "\n" ((v.lines.drop v.yOffset.toNat).take v.height.toNat))

/-- PageType constants (model.go iota). -/
def homePage : Int := 0

/-- ProjectsPage. -/
def projectsPage : Int := 1

/-- BlogPage. -/
def blogPage : Int := 2

/-- AboutPage. -/
def aboutPage : Int := 3

/-- ContactPage. -/
def contactPage : Int := 4

/-- Model: the terminal UI state (model.go). -/
structure Model where
  width : Int
  height : Int
  currentPage : Int
  pages : List String
  blogEntries : List BlogEntry
  selectedBlogEntry : Int
  viewingBlogEntry : Bool
  viewport : Viewport
  ready : Bool
  lastKey : String
deriving DecidableEq

/-- NewModel: the initial model. The Go constructor calls GetBlogPosts()
directly; its result is passed here as `entries`. -/
def newModel (entries : List BlogEntry) (width height : Int) : Model :=
  { width := width, height := height, currentPage := homePage,
    pages := ["Home", "Projects", "Blog", "About", "Contact"],
    blogEntries := entries, selectedBlogEntry := 0,
    viewingBlogEntry := false, viewport := Viewport.new width (height - 4),
    ready := false, lastKey := "" }
/-- Body of getHomeContent in terms of the fields it reads. -/
def homeContent (env : Env) (width : Int) : String :=
  env.contentStyleRender (renderMarkdownForDisplay env homeMarkdown width)

/-- Body of getAboutContent. -/
def aboutContent (env : Env) (width : Int) : String :=
  env.contentStyleRender (renderMarkdownForDisplay env aboutMarkdown width)

/-- Body of getContactContent. -/
def contactContent (env : Env) (width : Int) : String :=
  env.contentStyleRender (renderMarkdownForDisplay env contactMarkdown width)

/-- The markdown block built for one project inside getProjectsContent
(fmt.Sprintf pieces in source order). -/
def projectMd (i : Nat) (p : Project) : String :=
  "## " ++ toString (i + 1) ++ ". " ++ p.name ++ "\n\n" ++
  "**Description:** " ++ p.description ++ "\n\n" ++
  "**Technologies:**\n" ++
  String.join (p.tech.map (fun t => "- " ++ t ++ "\n")) ++ "\n" ++
  (if 0 < p.features.length then
    "**Key Features:**\n" ++
    String.join (p.features.map (fun f => "- " ++ f ++ "\n")) ++ "\n"
  else "") ++
  "**Status:** " ++ p.status ++ "\n" ++
  (if p.url ≠ "" then "**Repository:** [" ++ p.url ++ "](" ++ p.url ++ ")\n" else "") ++
  "\n---\n\n"

/-- The full markdown document built by getProjectsContent. -/
def projectsMarkdown : String :=
  "# 🛠️ Featured Projects\n\n" ++
  "Here are some of my notable projects and contributions:\n\n" ++
  String.join (GetFeaturedProjects.enum.map (fun ip => projectMd ip.1 ip.2)) ++
  "## 🔗 Links\n\n" ++
  "Check out my GitHub profile for complete project listings, source code, and detailed documentation:\n\n" ++
  "**GitHub:** [https://github.com/Arpan-206](https://github.com/Arpan-206)\n\n" ++
  "🚀 Always working on something new and exciting!\n"

/-- Body of getProjectsContent. -/
def projectsContent (env : Env) (width : Int) : String :=
  env.contentStyleRender (renderMarkdownForDisplay env projectsMarkdown width)

/-- Body of getBlogContent in terms of the fields it reads: card list with
the selected card styled differently, under a fixed header. -/
def blogContentCore (env : Env) (sel : Int) (entries : List BlogEntry) : String :=
  let cards := entries.enum.map (fun ie =>
    let cardContent := "📝 " ++ ie.2.title ++ "\n\n" ++ ie.2.summary ++
      "\n\n📅 " ++ ie.2.date
    if (ie.1 : Int) = sel then env.selectedCardStyleRender cardContent
    else env.cardStyleRender cardContent)
  let header := env.contentStyleRender
    "📚 Blog Posts\n\nUse ↑/↓ to navigate posts, Enter to read, scroll within posts\n"
  header ++ "\n" ++ String.intercalate "\n" cards

/-- Body of getBlogEntryContent in terms of the fields it reads. The guard
returns the not-found placeholder when the selection index reaches past the
entry list; a selection that is negative hits `goIndex` and the `none` models
the index-out-of-range panic Go would raise there. -/
def blogEntryContentCore (env : Env) (width sel : Int)
    (entries : List BlogEntry) : Option String :=
  if (entries.length : Int) ≤ sel then
    some (env.contentStyleRender "Blog entry not found")
  else
    match goIndex entries sel with
    | none => none
    | some entry =>
      let renderedContent := renderMarkdownForDisplay env entry.content width
      let header := "📝 " ++ entry.title ++ "\n📅 " ++ entry.date ++ "\n\n"
      some (env.contentStyleRender (header ++ renderedContent))

/-- Body of getPageContent in terms of the fields it reads. -/
def pageContentCore (env : Env) (width cp : Int) (viewing : Bool) (sel : Int)
    (entries : List BlogEntry) : Option String :=
  if cp = homePage then some (homeContent env width)
  else if cp = projectsPage then some (projectsContent env width)
  else if cp = blogPage then
    if viewing = true then blogEntryContentCore env width sel entries
    else some (blogContentCore env sel entries)
  else if cp = aboutPage then some (aboutContent env width)
  else if cp = contactPage then some (contactContent env width)
  else some "Page not found"

/-- Model.getPageContent. -/
def Model.getPageContent (env : Env) (m : Model) : Option String :=
  pageContentCore env m.width m.currentPage m.viewingBlogEntry
    m.selectedBlogEntry m.blogEntries

/-- Model.getBlogEntryContent. -/
def Model.getBlogEntryContent (env : Env) (m : Model) : Option String :=
  blogEntryContentCore env m.width m.selectedBlogEntry m.blogEntries

/-- updateViewportContent: store the current page content in the viewport and
scroll to the top. -/
def Model.updateViewportContent (env : Env) (m : Model) : Option Model :=
  match m.getPageContent env with
  | none => none
  | some content =>
    some { m with viewport := (m.viewport.setContent content).gotoTop }

/-- Navbar line (renderNavbar). -/
def navbarCore (env : Env) (pages : List String) (cp : Int) : String :=
  let navItems := pages.enum.map (fun ip =>
    if (ip.1 : Int) = cp then env.activeNavRender ip.2
    else env.inactiveNavRender ip.2)
  env.navbarStyleRender ("📍 Arpan\x27s Portfolio  |  " ++ String.intercalate " " navItems)

/-- Footer line (renderFooter). -/
def renderFooterCore (env : Env) (cp : Int) (viewing : Bool) : String :=
  let helpText :=
    if viewing = true then
      "📖 Reading blog post • ↑/↓ PgUp/PgDn to scroll • Backspace to return • q/Ctrl+C to quit"
    else if cp = blogPage then
      "📚 Blog posts • ↑/↓ navigate • Enter to read • ←/→ change page • q/Ctrl+C to quit"
    else
      "🧭 Portfolio navigation • ←/→ navigate pages • ↑/↓ scroll content • q/Ctrl+C to quit"
  env.footerStyleRender helpText

/-- Model.View: the placeholder frame until the first geometry report, then
the vertical composition navbar / viewport window / footer. -/
def Model.view (env : Env) (m : Model) : String :=
  if m.ready = false then "Loading..."
  else env.joinVertical
    [navbarCore env m.pages m.currentPage, m.viewport.view env,
     renderFooterCore env m.currentPage m.viewingBlogEntry]
/-- The left/right page switch of Update (model.go:169-185). The updated
model is passed on to the rest of the key handler. -/
def navLR (env : Env) (m : Model) (k : Key) : Option Model :=
  if k = Key.left ∨ k = Key.char 'h' then
    if m.viewingBlogEntry = false then
      if 0 < m.currentPage then
        Model.updateViewportContent env { m with currentPage := m.currentPage - 1 }
      else some m
    else some m
  else if k = Key.right ∨ k = Key.char 'l' then
    if m.viewingBlogEntry = false then
      if m.currentPage < (m.pages.length : Int) - 1 then
        Model.updateViewportContent env { m with currentPage := m.currentPage + 1 }
      else some m
    else some m
  else some m

/-- The rest of the key handler after the page switch (model.go:188-274):
the shift+G jump, the g chord, the unconditional chord reset, the second key
switch, and the final viewport delegation. The Bool is true when the step
returns tea.Quit. -/
def stepKey2 (env : Env) (m : Model) (k : Key) : Option (Model × Bool) :=
  if k = Key.char 'G' then
    let m := if m.currentPage = blogPage ∧ m.viewingBlogEntry = false then
        { m with selectedBlogEntry := (m.blogEntries.length : Int) - 1 }
      else m
    let m := { m with viewport := m.viewport.gotoBottom }
    match m.getPageContent env with
    | none => none
    | some content => some ({ m with viewport := m.viewport.setContent content }, false)
  else if k = Key.char 'g' then
    if m.lastKey = "g" then
      let m := { m with viewport := m.viewport.gotoTop }
      let m := if m.currentPage = blogPage ∧ m.viewingBlogEntry = false then
          { m with selectedBlogEntry := 0 }
        else m
      match m.updateViewportContent env with
      | none => none
      | some m => some ({ m with lastKey := "" }, false)
    else some ({ m with lastKey := "g" }, false)
  else
    let m := { m with lastKey := "" }
    if k = Key.ctrlU then some ({ m with viewport := m.viewport.lineUp 10 }, false)
    else if k = Key.ctrlD then some ({ m with viewport := m.viewport.lineDown 10 }, false)
    else if k = Key.up ∨ k = Key.char 'k' then
      if m.currentPage = blogPage ∧ m.viewingBlogEntry = false then
        if (0 : Int) < m.selectedBlogEntry then
          match Model.updateViewportContent env
              { m with selectedBlogEntry := m.selectedBlogEntry - 1 } with
          | none => none
          | some m => some (m, false)
        else some (m, false)
      else some ({ m with viewport := m.viewport.keyUpdate k }, false)
    else if k = Key.down ∨ k = Key.char 'j' then
      if m.currentPage = blogPage ∧ m.viewingBlogEntry = false then
        if m.selectedBlogEntry < (m.blogEntries.length : Int) - 1 then
          match Model.updateViewportContent env
              { m with selectedBlogEntry := m.selectedBlogEntry + 1 } with
          | none => none
          | some m => some (m, false)
        else some (m, false)
      else some ({ m with viewport := m.viewport.keyUpdate k }, false)
    else if k = Key.enter then
      if m.currentPage = blogPage ∧ m.viewingBlogEntry = false then
        match Model.updateViewportContent env { m with viewingBlogEntry := true } with
        | none => none
        | some m => some (m, false)
      else some (m, false)
    else if k = Key.backspace then
      if m.viewingBlogEntry = true then
        match Model.updateViewportContent env { m with viewingBlogEntry := false } with
        | none => none
        | some m => some (m, false)
      else some (m, false)
    else some ({ m with viewport := m.viewport.keyUpdate k }, false)

/-- One step of Update for a key message. The quit keys return immediately
with the quit flag; every other key runs the page switch and then the rest of
the handler. -/
def stepKey (env : Env) (m : Model) (k : Key) : Option (Model × Bool) :=
  if k = Key.ctrlC ∨ k = Key.char 'q' then some (m, true)
  else
    match navLR env m k with
    | none => none
    | some m => stepKey2 env m k

/-- One step of Update for a window-size message (model.go:131-152). The
global navbar/footer style mutation only affects styling and lives in Env. -/
def stepResize (env : Env) (m : Model) (w h : Int) : Option (Model × Bool) :=
  let m := if m.ready = false then
      { m with viewport := Viewport.new w (h - 4), ready := true }
    else
      { m with viewport := { m.viewport with width := w, height := h - 4 } }
  let m := { m with width := w, height := h }
  match m.updateViewportContent env with
  | none => none
  | some m => some (m, false)

/-- A message delivered to a session: a key event or a geometry report. -/
inductive Msg where
  | key : Key → Msg
  | resize : Int → Int → Msg
deriving DecidableEq

/-- Model.Update. -/
def update (env : Env) (m : Model) : Msg → Option (Model × Bool)
  | Msg.key k => stepKey env m k
  | Msg.resize w h => stepResize env m w h

/-- Apply a sequence of key events, keeping the model component. -/
def foldKeys (env : Env) (m : Model) (ks : List Key) : Option Model :=
  List.foldlM (fun acc k => (stepKey env acc k).map Prod.fst) m ks

/-- States reachable from m0 by any sequence of messages. -/
inductive Reachable (env : Env) (m0 : Model) : Model → Prop
  | refl : Reachable env m0 m0
  | step {m1 m2 : Model} {q : Bool} (msg : Msg) :
      Reachable env m0 m1 → update env m1 msg = some (m2, q) →
      Reachable env m0 m2

/-- The session-state invariant: the page list is the fixed five-page list,
the current page is in range, the entry list is non-empty, and the selection
is in range. -/
def SessionInv (m : Model) : Prop :=
  m.pages = ["Home", "Projects", "Blog", "About", "Contact"] ∧
  0 ≤ m.currentPage ∧ m.currentPage ≤ 4 ∧
  1 ≤ m.blogEntries.length ∧
  0 ≤ m.selectedBlogEntry ∧ m.selectedBlogEntry < (m.blogEntries.length : Int)

instance (m : Model) : Decidable (SessionInv m) := by
  unfold SessionInv
  infer_instance
attribute [ext] Viewport Model

/-- A test environment for concrete evaluations: the abstract style and
render functions collapse their input. -/
def envTest : Env :=
  { render := fun _ _ => some "r", contentStyleRender := fun _ => "c",
    cardStyleRender := fun _ => "k", selectedCardStyleRender := fun _ => "s",
    navbarStyleRender := fun _ => "n", footerStyleRender := fun _ => "f",
    activeNavRender := fun _ => "a", inactiveNavRender := fun _ => "i",
    viewportFrameRender := fun _ => "v", joinVertical := fun _ => "J" }

/-- Concrete blog entries used by witnesses. -/
def entryA : BlogEntry :=
  { title := "A", summary := "sa", content := "ca", date := "2024-02-01" }

/-- Second concrete blog entry. -/
def entryB : BlogEntry :=
  { title := "B", summary := "sb", content := "cb", date := "2024-01-01" }

/-- A fresh session model over the two test entries (pre-ready). -/
def testModel : Model := newModel [entryA, entryB] 80 24

/-- The test model marked ready and put on the Blog index. -/
def testBlogModel : Model := { testModel with ready := true, currentPage := 2 }

/-- The Blog-index test model with the second post selected. -/
def testBlogSel1 : Model := { testBlogModel with selectedBlogEntry := 1 }

/-- A Blog-index session over the fallback posts. -/
def fallbackModel : Model :=
  { newModel getFallbackBlogPosts 80 24 with ready := true, currentPage := 2 }

/-- A detail state whose selection reaches past the fallback post list. -/
def overModel : Model :=
  { fallbackModel with viewingBlogEntry := true, selectedBlogEntry := 5 }

/-- The identity function satisfies the sort.Slice parameter shape. -/
def idSortSlice : (BlogPost → BlogPost → Bool) → List BlogPost → List BlogPost :=
  fun _ l => l

/-- A concrete current date for GetBlogPosts evaluations. -/
def dateNow : Date := { year := 2024, month := 1, day := 1 }

/-- A filesystem whose ReadDir fails. -/
def fsErr : Fs := { getwdOk := true, dirExists := true, readDirOk := false, files := [] }

/-- A directory entry holding one unpublished markdown post. -/
def unpubEntryFile : DirEntry :=
  { name := "draft.md", isDir := false,
    content := some "---\ntitle: Draft\npublished: false\n---\nbody" }

/-- A readable blog directory with zero published posts. -/
def fsUnpublished : Fs :=
  { getwdOk := true, dirExists := true, readDirOk := true,
    files := [unpubEntryFile] }

/-- The recognized single-step actions that are neither the chord key nor
go-to-bottom nor quit: the physical keys of move-left/right/up/down,
half-page up/down, confirm and back. -/
def cancelKeys : List Key :=
  [Key.left, Key.char 'h', Key.right, Key.char 'l',
   Key.up, Key.char 'k', Key.down, Key.char 'j',
   Key.ctrlU, Key.ctrlD, Key.enter, Key.backspace]

/-- A ready test session with a pending chord (lastKey = g). -/
def chordModel : Model := { testModel with ready := true, lastKey := "g" }

/-- A ready Blog-index session with a pending chord and selection 1. -/
def chordBlogModel : Model :=
  { testBlogModel with lastKey := "g", selectedBlogEntry := 1 }

/-- The state mutation performed by a completed g-g chord before the content
reload: scroll to top and, on the Blog index, reset the selection
(model.go:201-209). -/
def ggPre (m : Model) : Model :=
  let m1 := { m with viewport := m.viewport.gotoTop }
  if m1.currentPage = blogPage ∧ m1.viewingBlogEntry = false then
    { m1 with selectedBlogEntry := 0 }
  else m1

/-- The state mutation performed by shift+G before the content store:
jump the selection to the last post on the Blog index, and scroll the
viewport to the bottom (model.go:188-194). -/
def gPre (m : Model) : Model :=
  let m1 := if m.currentPage = blogPage ∧ m.viewingBlogEntry = false then
      { m with selectedBlogEntry := (m.blogEntries.length : Int) - 1 }
    else m
  { m1 with viewport := m1.viewport.gotoBottom }

theorem goIndex_isSome {α : Type} {l : List α} {i : Int}
    (h0 : 0 ≤ i) (hl : i < (l.length : Int)) : (goIndex l i).isSome := by
  unfold goIndex
  rw [if_pos h0]
  have : i.toNat < l.length := by omega
  rw [Option.isSome_iff_ne_none]
  intro hnone
  rw [List.get?_eq_none] at hnone
  omega

theorem blogEntryContentCore_isSome (env : Env) (w sel : Int)
    (entries : List BlogEntry)
    (h : 0 ≤ sel ∨ (entries.length : Int) ≤ sel) :
    (blogEntryContentCore env w sel entries).isSome := by
  unfold blogEntryContentCore
  by_cases hle : (entries.length : Int) ≤ sel
  · rw [if_pos hle]; rfl
  · rw [if_neg hle]
    have h0 : 0 ≤ sel := by tauto
    have hlt : sel < (entries.length : Int) := by omega
    have := goIndex_isSome h0 hlt
    cases hg : goIndex entries sel with
    | none => rw [hg] at this; simp at this
    | some e => rfl

theorem pageContentCore_isSome (env : Env) (w cp : Int) (viewing : Bool)
    (sel : Int) (entries : List BlogEntry)
    (h : 0 ≤ sel ∨ (entries.length : Int) ≤ sel) :
    (pageContentCore env w cp viewing sel entries).isSome := by
  unfold pageContentCore
  by_cases h0 : cp = homePage
  · rw [if_pos h0]; rfl
  · rw [if_neg h0]
    by_cases h1 : cp = projectsPage
    · rw [if_pos h1]; rfl
    · rw [if_neg h1]
      by_cases h2 : cp = blogPage
      · rw [if_pos h2]
        cases viewing with
        | false => rw [if_neg (by simp)]; rfl
        | true => rw [if_pos rfl]; exact blogEntryContentCore_isSome env w sel entries h
      · rw [if_neg h2]
        by_cases h3 : cp = aboutPage
        · rw [if_pos h3]; rfl
        · rw [if_neg h3]
          by_cases h4 : cp = contactPage
          · rw [if_pos h4]; rfl
          · rw [if_neg h4]; rfl

theorem pageContentCore_isSome_notViewing (env : Env) (w cp sel : Int)
    (entries : List BlogEntry) :
    (pageContentCore env w cp false sel entries).isSome := by
  unfold pageContentCore
  by_cases h0 : cp = homePage
  · rw [if_pos h0]; rfl
  · rw [if_neg h0]
    by_cases h1 : cp = projectsPage
    · rw [if_pos h1]; rfl
    · rw [if_neg h1]
      by_cases h2 : cp = blogPage
      · rw [if_pos h2, if_neg (by simp)]; rfl
      · rw [if_neg h2]
        by_cases h3 : cp = aboutPage
        · rw [if_pos h3]; rfl
        · rw [if_neg h3]
          by_cases h4 : cp = contactPage
          · rw [if_pos h4]; rfl
          · rw [if_neg h4]; rfl

theorem uvc_spec {env : Env} {m : Model}
    (h : (m.getPageContent env).isSome) :
    ∃ c, m.getPageContent env = some c ∧
      m.updateViewportContent env =
        some { m with viewport := (m.viewport.setContent c).gotoTop } := by
  cases hc : m.getPageContent env with
  | none => rw [hc] at h; simp at h
  | some c =>
    refine ⟨c, rfl, ?_⟩
    unfold Model.updateViewportContent
    rw [hc]

theorem uvc_fields {env : Env} {m m' : Model}
    (h : m.updateViewportContent env = some m') :
    m'.width = m.width ∧ m'.height = m.height ∧
    m'.currentPage = m.currentPage ∧ m'.pages = m.pages ∧
    m'.blogEntries = m.blogEntries ∧
    m'.selectedBlogEntry = m.selectedBlogEntry ∧
    m'.viewingBlogEntry = m.viewingBlogEntry ∧
    m'.ready = m.ready ∧ m'.lastKey = m.lastKey := by
  unfold Model.updateViewportContent at h
  cases hc : m.getPageContent env with
  | none => rw [hc] at h; simp at h
  | some c =>
    rw [hc] at h
    injection h with h
    subst h
    exact ⟨rfl, rfl, rfl, rfl, rfl, rfl, rfl, rfl, rfl⟩

theorem uvc_isSome {env : Env} {m : Model}
    (h : 0 ≤ m.selectedBlogEntry ∨
      (m.blogEntries.length : Int) ≤ m.selectedBlogEntry) :
    (m.updateViewportContent env).isSome := by
  have hp : (m.getPageContent env).isSome :=
    pageContentCore_isSome env m.width m.currentPage m.viewingBlogEntry
      m.selectedBlogEntry m.blogEntries h
  obtain ⟨c, hc, huvc⟩ := uvc_spec hp
  rw [huvc]; rfl
theorem navLR_spec (env : Env) (m : Model) (k : Key) (hInv : SessionInv m) :
    ∃ m1, navLR env m k = some m1 ∧ SessionInv m1 ∧
      m1.blogEntries = m.blogEntries ∧ m1.pages = m.pages ∧
      m1.selectedBlogEntry = m.selectedBlogEntry ∧
      m1.viewingBlogEntry = m.viewingBlogEntry ∧
      m1.ready = m.ready ∧ m1.lastKey = m.lastKey := by
  obtain ⟨hpages, hcp0, hcp4, hlen, hsel0, hselLt⟩ := hInv
  unfold navLR
  by_cases hL : k = Key.left ∨ k = Key.char 'h'
  · rw [if_pos hL]
    by_cases hv : m.viewingBlogEntry = false
    · rw [if_pos hv]
      by_cases hc : 0 < m.currentPage
      · rw [if_pos hc]
        have hs : (Model.updateViewportContent env
            { m with currentPage := m.currentPage - 1 }).isSome :=
          uvc_isSome (Or.inl hsel0)
        obtain ⟨m1, hm1⟩ := Option.isSome_iff_exists.mp hs
        obtain ⟨hw, hh, hcp, hpg, hbe, hse, hvw, hrd, hlk⟩ := uvc_fields hm1
        have hcp' : m1.currentPage = m.currentPage - 1 := hcp
        have hpg' : m1.pages = m.pages := hpg
        have hbe' : m1.blogEntries = m.blogEntries := hbe
        have hse' : m1.selectedBlogEntry = m.selectedBlogEntry := hse
        have hvw' : m1.viewingBlogEntry = m.viewingBlogEntry := hvw
        have hrd' : m1.ready = m.ready := hrd
        have hlk' : m1.lastKey = m.lastKey := hlk
        refine ⟨m1, hm1, ⟨hpg'.trans hpages, ?_, ?_, ?_, ?_, ?_⟩,
          hbe', hpg', hse', hvw', hrd', hlk'⟩
        · rw [hcp']; omega
        · rw [hcp']; omega
        · rw [hbe']; omega
        · rw [hse']; omega
        · rw [hse', hbe']; omega
      · rw [if_neg hc]
        exact ⟨m, rfl, ⟨hpages, hcp0, hcp4, hlen, hsel0, hselLt⟩,
          rfl, rfl, rfl, rfl, rfl, rfl⟩
    · rw [if_neg hv]
      exact ⟨m, rfl, ⟨hpages, hcp0, hcp4, hlen, hsel0, hselLt⟩,
        rfl, rfl, rfl, rfl, rfl, rfl⟩
  · rw [if_neg hL]
    by_cases hR : k = Key.right ∨ k = Key.char 'l'
    · rw [if_pos hR]
      by_cases hv : m.viewingBlogEntry = false
      · rw [if_pos hv]
        by_cases hc : m.currentPage < (m.pages.length : Int) - 1
        · rw [if_pos hc]
          have hs : (Model.updateViewportContent env
              { m with currentPage := m.currentPage + 1 }).isSome :=
            uvc_isSome (Or.inl hsel0)
          obtain ⟨m1, hm1⟩ := Option.isSome_iff_exists.mp hs
          obtain ⟨hw, hh, hcp, hpg, hbe, hse, hvw, hrd, hlk⟩ := uvc_fields hm1
          have hcp' : m1.currentPage = m.currentPage + 1 := hcp
          have hpg' : m1.pages = m.pages := hpg
          have hbe' : m1.blogEntries = m.blogEntries := hbe
          have hse' : m1.selectedBlogEntry = m.selectedBlogEntry := hse
          have hvw' : m1.viewingBlogEntry = m.viewingBlogEntry := hvw
          have hrd' : m1.ready = m.ready := hrd
          have hlk' : m1.lastKey = m.lastKey := hlk
          have hlen5 : (m.pages.length : Int) = 5 := by rw [hpages]; rfl
          rw [hlen5] at hc
          refine ⟨m1, hm1, ⟨hpg'.trans hpages, ?_, ?_, ?_, ?_, ?_⟩,
            hbe', hpg', hse', hvw', hrd', hlk'⟩
          · rw [hcp']; omega
          · rw [hcp']; omega
          · rw [hbe']; omega
          · rw [hse']; omega
          · rw [hse', hbe']; omega
        · rw [if_neg hc]
          exact ⟨m, rfl, ⟨hpages, hcp0, hcp4, hlen, hsel0, hselLt⟩,
            rfl, rfl, rfl, rfl, rfl, rfl⟩
      · rw [if_neg hv]
        exact ⟨m, rfl, ⟨hpages, hcp0, hcp4, hlen, hsel0, hselLt⟩,
          rfl, rfl, rfl, rfl, rfl, rfl⟩
    · rw [if_neg hR]
      exact ⟨m, rfl, ⟨hpages, hcp0, hcp4, hlen, hsel0, hselLt⟩,
        rfl, rfl, rfl, rfl, rfl, rfl⟩
theorem stepKey2_spec (env : Env) (m : Model) (k : Key) (hInv : SessionInv m) :
    ∃ m2 q, stepKey2 env m k = some (m2, q) ∧ SessionInv m2 ∧
      m2.ready = m.ready ∧ m2.blogEntries = m.blogEntries ∧
      m2.pages = m.pages := by
  obtain ⟨hpages, hcp0, hcp4, hlen, hsel0, hselLt⟩ := hInv
  unfold stepKey2
  dsimp only
  by_cases hG : k = Key.char 'G'
  · rw [if_pos hG]
    by_cases hbi : m.currentPage = blogPage ∧ m.viewingBlogEntry = false
    · rw [if_pos hbi]
      have hps : (Model.getPageContent env
          { m with selectedBlogEntry := (m.blogEntries.length : Int) - 1,
                   viewport := m.viewport.gotoBottom }).isSome :=
        pageContentCore_isSome env _ _ _ _ _
          (Or.inl (by omega : (0 : Int) ≤ (m.blogEntries.length : Int) - 1))
      obtain ⟨c, hc⟩ := Option.isSome_iff_exists.mp hps
      rw [hc]
      refine ⟨_, false, rfl, ?_, rfl, rfl, rfl⟩
      unfold SessionInv
      dsimp only
      exact ⟨hpages, hcp0, hcp4, hlen, by omega, by omega⟩
    · rw [if_neg hbi]
      have hps : (Model.getPageContent env
          { m with viewport := m.viewport.gotoBottom }).isSome :=
        pageContentCore_isSome env _ _ _ _ _ (Or.inl hsel0)
      obtain ⟨c, hc⟩ := Option.isSome_iff_exists.mp hps
      rw [hc]
      refine ⟨_, false, rfl, ?_, rfl, rfl, rfl⟩
      unfold SessionInv
      dsimp only
      exact ⟨hpages, hcp0, hcp4, hlen, hsel0, hselLt⟩
  · rw [if_neg hG]
    by_cases hg : k = Key.char 'g'
    · rw [if_pos hg]
      by_cases hlast : m.lastKey = "g"
      · rw [if_pos hlast]
        by_cases hbi : m.currentPage = blogPage ∧ m.viewingBlogEntry = false
        · rw [if_pos hbi]
          have hs : (Model.updateViewportContent env
              { m with viewport := m.viewport.gotoTop,
                       selectedBlogEntry := 0 }).isSome :=
            uvc_isSome (Or.inl (le_refl (0 : Int)))
          obtain ⟨m1, hm1⟩ := Option.isSome_iff_exists.mp hs
          rw [hm1]
          obtain ⟨hw, hh, hcp, hpg, hbe, hse, hvw, hrd, hlk⟩ := uvc_fields hm1
          have hcp' : m1.currentPage = m.currentPage := hcp
          have hpg' : m1.pages = m.pages := hpg
          have hbe' : m1.blogEntries = m.blogEntries := hbe
          have hse' : m1.selectedBlogEntry = (0 : Int) := hse
          have hrd' : m1.ready = m.ready := hrd
          refine ⟨_, false, rfl, ?_, ?_, ?_, ?_⟩
          · unfold SessionInv
            dsimp only
            rw [hcp', hpg', hbe', hse']
            exact ⟨hpages, hcp0, hcp4, hlen, le_refl 0, by omega⟩
          · dsimp only; exact hrd'
          · dsimp only; exact hbe'
          · dsimp only; exact hpg'
        · rw [if_neg hbi]
          have hs : (Model.updateViewportContent env
              { m with viewport := m.viewport.gotoTop }).isSome :=
            uvc_isSome (Or.inl hsel0)
          obtain ⟨m1, hm1⟩ := Option.isSome_iff_exists.mp hs
          rw [hm1]
          obtain ⟨hw, hh, hcp, hpg, hbe, hse, hvw, hrd, hlk⟩ := uvc_fields hm1
          have hcp' : m1.currentPage = m.currentPage := hcp
          have hpg' : m1.pages = m.pages := hpg
          have hbe' : m1.blogEntries = m.blogEntries := hbe
          have hse' : m1.selectedBlogEntry = m.selectedBlogEntry := hse
          have hrd' : m1.ready = m.ready := hrd
          refine ⟨_, false, rfl, ?_, ?_, ?_, ?_⟩
          · unfold SessionInv
            dsimp only
            rw [hcp', hpg', hbe', hse']
            exact ⟨hpages, hcp0, hcp4, hlen, hsel0, hselLt⟩
          · dsimp only; exact hrd'
          · dsimp only; exact hbe'
          · dsimp only; exact hpg'
      · rw [if_neg hlast]
        exact ⟨_, false, rfl, ⟨hpages, hcp0, hcp4, hlen, hsel0, hselLt⟩,
          rfl, rfl, rfl⟩
    · rw [if_neg hg]
      by_cases hU : k = Key.ctrlU
      · rw [if_pos hU]
        exact ⟨_, false, rfl, ⟨hpages, hcp0, hcp4, hlen, hsel0, hselLt⟩,
          rfl, rfl, rfl⟩
      · rw [if_neg hU]
        by_cases hD : k = Key.ctrlD
        · rw [if_pos hD]
          exact ⟨_, false, rfl, ⟨hpages, hcp0, hcp4, hlen, hsel0, hselLt⟩,
            rfl, rfl, rfl⟩
        · rw [if_neg hD]
          by_cases hup : k = Key.up ∨ k = Key.char 'k'
          · rw [if_pos hup]
            by_cases hbi : m.currentPage = blogPage ∧ m.viewingBlogEntry = false
            · rw [if_pos hbi]
              by_cases hpos : (0 : Int) < m.selectedBlogEntry
              · rw [if_pos hpos]
                have hs : (Model.updateViewportContent env
                    { m with lastKey := "",
                             selectedBlogEntry := m.selectedBlogEntry - 1 }).isSome :=
                  uvc_isSome (Or.inl (by omega : (0 : Int) ≤ m.selectedBlogEntry - 1))
                obtain ⟨m1, hm1⟩ := Option.isSome_iff_exists.mp hs
                rw [hm1]
                obtain ⟨hw, hh, hcp, hpg, hbe, hse, hvw, hrd, hlk⟩ := uvc_fields hm1
                have hcp' : m1.currentPage = m.currentPage := hcp
                have hpg' : m1.pages = m.pages := hpg
                have hbe' : m1.blogEntries = m.blogEntries := hbe
                have hse' : m1.selectedBlogEntry = m.selectedBlogEntry - 1 := hse
                have hrd' : m1.ready = m.ready := hrd
                refine ⟨_, false, rfl, ?_, hrd', hbe', hpg'⟩
                unfold SessionInv
                rw [hcp', hpg', hbe', hse']
                exact ⟨hpages, hcp0, hcp4, hlen, by omega, by omega⟩
              · rw [if_neg hpos]
                exact ⟨_, false, rfl, ⟨hpages, hcp0, hcp4, hlen, hsel0, hselLt⟩,
                  rfl, rfl, rfl⟩
            · rw [if_neg hbi]
              exact ⟨_, false, rfl, ⟨hpages, hcp0, hcp4, hlen, hsel0, hselLt⟩,
                rfl, rfl, rfl⟩
          · rw [if_neg hup]
            by_cases hdn : k = Key.down ∨ k = Key.char 'j'
            · rw [if_pos hdn]
              by_cases hbi : m.currentPage = blogPage ∧ m.viewingBlogEntry = false
              · rw [if_pos hbi]
                by_cases hlt : m.selectedBlogEntry < (m.blogEntries.length : Int) - 1
                · rw [if_pos hlt]
                  have hs : (Model.updateViewportContent env
                      { m with lastKey := "",
                               selectedBlogEntry := m.selectedBlogEntry + 1 }).isSome :=
                    uvc_isSome (Or.inl (by omega : (0 : Int) ≤ m.selectedBlogEntry + 1))
                  obtain ⟨m1, hm1⟩ := Option.isSome_iff_exists.mp hs
                  rw [hm1]
                  obtain ⟨hw, hh, hcp, hpg, hbe, hse, hvw, hrd, hlk⟩ := uvc_fields hm1
                  have hcp' : m1.currentPage = m.currentPage := hcp
                  have hpg' : m1.pages = m.pages := hpg
                  have hbe' : m1.blogEntries = m.blogEntries := hbe
                  have hse' : m1.selectedBlogEntry = m.selectedBlogEntry + 1 := hse
                  have hrd' : m1.ready = m.ready := hrd
                  refine ⟨_, false, rfl, ?_, hrd', hbe', hpg'⟩
                  unfold SessionInv
                  rw [hcp', hpg', hbe', hse']
                  exact ⟨hpages, hcp0, hcp4, hlen, by omega, by omega⟩
                · rw [if_neg hlt]
                  exact ⟨_, false, rfl, ⟨hpages, hcp0, hcp4, hlen, hsel0, hselLt⟩,
                    rfl, rfl, rfl⟩
              · rw [if_neg hbi]
                exact ⟨_, false, rfl, ⟨hpages, hcp0, hcp4, hlen, hsel0, hselLt⟩,
                  rfl, rfl, rfl⟩
            · rw [if_neg hdn]
              by_cases hen : k = Key.enter
              · rw [if_pos hen]
                by_cases hbi : m.currentPage = blogPage ∧ m.viewingBlogEntry = false
                · rw [if_pos hbi]
                  have hs : (Model.updateViewportContent env
                      { m with lastKey := "", viewingBlogEntry := true }).isSome :=
                    uvc_isSome (Or.inl hsel0)
                  obtain ⟨m1, hm1⟩ := Option.isSome_iff_exists.mp hs
                  rw [hm1]
                  obtain ⟨hw, hh, hcp, hpg, hbe, hse, hvw, hrd, hlk⟩ := uvc_fields hm1
                  have hcp' : m1.currentPage = m.currentPage := hcp
                  have hpg' : m1.pages = m.pages := hpg
                  have hbe' : m1.blogEntries = m.blogEntries := hbe
                  have hse' : m1.selectedBlogEntry = m.selectedBlogEntry := hse
                  have hrd' : m1.ready = m.ready := hrd
                  refine ⟨m1, false, rfl, ?_, hrd', hbe', hpg'⟩
                  unfold SessionInv
                  rw [hcp', hpg', hbe', hse']
                  exact ⟨hpages, hcp0, hcp4, hlen, hsel0, hselLt⟩
                · rw [if_neg hbi]
                  exact ⟨_, false, rfl, ⟨hpages, hcp0, hcp4, hlen, hsel0, hselLt⟩,
                    rfl, rfl, rfl⟩
              · rw [if_neg hen]
                by_cases hbk : k = Key.backspace
                · rw [if_pos hbk]
                  by_cases hvw : m.viewingBlogEntry = true
                  · rw [if_pos hvw]
                    have hs : (Model.updateViewportContent env
                        { m with lastKey := "", viewingBlogEntry := false }).isSome :=
                      uvc_isSome (Or.inl hsel0)
                    obtain ⟨m1, hm1⟩ := Option.isSome_iff_exists.mp hs
                    rw [hm1]
                    obtain ⟨hw, hh, hcp, hpg, hbe, hse, hvw2, hrd, hlk⟩ := uvc_fields hm1
                    have hcp' : m1.currentPage = m.currentPage := hcp
                    have hpg' : m1.pages = m.pages := hpg
                    have hbe' : m1.blogEntries = m.blogEntries := hbe
                    have hse' : m1.selectedBlogEntry = m.selectedBlogEntry := hse
                    have hrd' : m1.ready = m.ready := hrd
                    refine ⟨m1, false, rfl, ?_, hrd', hbe', hpg'⟩
                    unfold SessionInv
                    rw [hcp', hpg', hbe', hse']
                    exact ⟨hpages, hcp0, hcp4, hlen, hsel0, hselLt⟩
                  · rw [if_neg hvw]
                    exact ⟨_, false, rfl, ⟨hpages, hcp0, hcp4, hlen, hsel0, hselLt⟩,
                      rfl, rfl, rfl⟩
                · rw [if_neg hbk]
                  exact ⟨_, false, rfl, ⟨hpages, hcp0, hcp4, hlen, hsel0, hselLt⟩,
                    rfl, rfl, rfl⟩
theorem stepKey_spec (env : Env) (m : Model) (k : Key) (hInv : SessionInv m) :
    ∃ m' q, stepKey env m k = some (m', q) ∧ SessionInv m' ∧
      m'.ready = m.ready := by
  unfold stepKey
  by_cases hq : k = Key.ctrlC ∨ k = Key.char 'q'
  · rw [if_pos hq]
    exact ⟨m, true, rfl, hInv, rfl⟩
  · rw [if_neg hq]
    obtain ⟨m1, hm1, hInv1, hbe1, hpg1, hse1, hvw1, hrd1, hlk1⟩ :=
      navLR_spec env m k hInv
    rw [hm1]
    obtain ⟨m2, q, hm2, hInv2, hrd2, hbe2, hpg2⟩ := stepKey2_spec env m1 k hInv1
    exact ⟨m2, q, hm2, hInv2, hrd2.trans hrd1⟩

theorem stepResize_spec (env : Env) (m : Model) (w h : Int)
    (hInv : SessionInv m) :
    ∃ m', stepResize env m w h = some (m', false) ∧ SessionInv m' ∧
      m'.ready = true := by
  obtain ⟨hpages, hcp0, hcp4, hlen, hsel0, hselLt⟩ := hInv
  unfold stepResize
  dsimp only
  by_cases hrd : m.ready = false
  · rw [if_pos hrd]
    have hs : (Model.updateViewportContent env
        { m with viewport := Viewport.new w (h - 4), ready := true,
                 width := w, height := h }).isSome :=
      uvc_isSome (Or.inl hsel0)
    obtain ⟨m1, hm1⟩ := Option.isSome_iff_exists.mp hs
    rw [hm1]
    obtain ⟨hw, hh, hcp, hpg, hbe, hse, hvw, hrd1, hlk⟩ := uvc_fields hm1
    have hcp' : m1.currentPage = m.currentPage := hcp
    have hpg' : m1.pages = m.pages := hpg
    have hbe' : m1.blogEntries = m.blogEntries := hbe
    have hse' : m1.selectedBlogEntry = m.selectedBlogEntry := hse
    have hrd' : m1.ready = true := hrd1
    refine ⟨m1, rfl, ?_, hrd'⟩
    unfold SessionInv
    rw [hcp', hpg', hbe', hse']
    exact ⟨hpages, hcp0, hcp4, hlen, hsel0, hselLt⟩
  · rw [if_neg hrd]
    have hready : m.ready = true := by
      cases hr : m.ready with
      | false => exact absurd hr hrd
      | true => rfl
    have hs : (Model.updateViewportContent env
        { m with viewport := { m.viewport with width := w, height := h - 4 },
                 width := w, height := h }).isSome :=
      uvc_isSome (Or.inl hsel0)
    obtain ⟨m1, hm1⟩ := Option.isSome_iff_exists.mp hs
    rw [hm1]
    obtain ⟨hw, hh, hcp, hpg, hbe, hse, hvw, hrd1, hlk⟩ := uvc_fields hm1
    have hcp' : m1.currentPage = m.currentPage := hcp
    have hpg' : m1.pages = m.pages := hpg
    have hbe' : m1.blogEntries = m.blogEntries := hbe
    have hse' : m1.selectedBlogEntry = m.selectedBlogEntry := hse
    have hrd' : m1.ready = m.ready := hrd1
    refine ⟨m1, rfl, ?_, hrd'.trans hready⟩
    unfold SessionInv
    rw [hcp', hpg', hbe', hse']
    exact ⟨hpages, hcp0, hcp4, hlen, hsel0, hselLt⟩

theorem update_inv {env : Env} {m m' : Model} {q : Bool} {msg : Msg}
    (hInv : SessionInv m) (h : update env m msg = some (m', q)) :
    SessionInv m' := by
  cases msg with
  | key k =>
    obtain ⟨m2, q2, hm2, hInv2, _⟩ := stepKey_spec env m k hInv
    unfold update at h
    dsimp only at h
    rw [hm2] at h
    injection h with h
    injection h with h1 h2
    rw [← h1]
    exact hInv2
  | resize w hh =>
    obtain ⟨m2, hm2, hInv2, _⟩ := stepResize_spec env m w hh hInv
    unfold update at h
    dsimp only at h
    rw [hm2] at h
    injection h with h
    injection h with h1 h2
    rw [← h1]
    exact hInv2

theorem reachable_inv {env : Env} {m0 m : Model} (hInv : SessionInv m0)
    (h : Reachable env m0 m) : SessionInv m := by
  induction h with
  | refl => exact hInv
  | step msg hr hstep ih => exact update_inv ih hstep

theorem newModel_inv (entries : List BlogEntry) (w h : Int)
    (hlen : 1 ≤ entries.length) :
    SessionInv (newModel entries w h) := by
  unfold SessionInv newModel homePage
  dsimp only
  refine ⟨rfl, le_refl 0, by omega, hlen, le_refl 0, by omega⟩

theorem foldKeys_inv (env : Env) (ks : List Key) :
    ∀ m : Model, SessionInv m →
      ∃ m', foldKeys env m ks = some m' ∧ SessionInv m' := by
  induction ks with
  | nil => exact fun m hInv => ⟨m, rfl, hInv⟩
  | cons k ks ih =>
    intro m hInv
    obtain ⟨m1, q, hm1, hInv1, _⟩ := stepKey_spec env m k hInv
    obtain ⟨m', hm', hInv'⟩ := ih m1 hInv1
    refine ⟨m', ?_, hInv'⟩
    unfold foldKeys at hm' ⊢
    rw [List.foldlM_cons, hm1]
    simpa using hm'
theorem splitLinesAux_ne_nil (cs : List Char) : splitLinesAux cs ≠ [] := by
  induction cs with
  | nil => simp [splitLinesAux]
  | cons c cs ih =>
    unfold splitLinesAux
    dsimp only
    by_cases hc : c = '\n'
    · rw [if_pos hc]; simp
    · rw [if_neg hc]
      cases h : splitLinesAux cs with
      | nil => exact absurd h ih
      | cons a as => simp

theorem goSplitNewline_length (s : String) : 1 ≤ (goSplitNewline s).length := by
  unfold goSplitNewline
  rw [List.length_map]
  cases h : splitLinesAux s.toList with
  | nil => exact absurd h (splitLinesAux_ne_nil s.toList)
  | cons a as => simp

theorem maxYOffset_nonneg (v : Viewport) : 0 ≤ v.maxYOffset :=
  le_max_left 0 _

theorem setYOffset_nonneg (v : Viewport) (n : Int) :
    0 ≤ (v.setYOffset n).yOffset := by
  unfold Viewport.setYOffset
  dsimp only
  have h1 := maxYOffset_nonneg v
  omega

theorem gotoTop_yOffset (v : Viewport) (hv : 0 ≤ v.yOffset) :
    v.gotoTop.yOffset = 0 := by
  unfold Viewport.gotoTop Viewport.atTop
  by_cases h : v.yOffset ≤ 0
  · rw [if_pos (by simpa using h)]; omega
  · rw [if_neg (by simpa using h)]
    unfold Viewport.setYOffset
    dsimp only
    have h1 := maxYOffset_nonneg v
    omega

theorem gotoTop_lines (v : Viewport) : v.gotoTop.lines = v.lines := by
  unfold Viewport.gotoTop Viewport.setYOffset
  by_cases h : v.atTop = true
  · rw [if_pos h]
  · rw [if_neg h]

theorem gotoTop_of_yOffset_zero (v : Viewport) (h : v.yOffset = 0) :
    v.gotoTop = v := by
  unfold Viewport.gotoTop Viewport.atTop
  rw [if_pos (by simp [h])]

theorem setContent_eq (v : Viewport) (s : String) :
    v.setContent s =
      (if ((goSplitNewline (s.replace "\r\n" "\n")).length : Int) - 1 < v.yOffset
        then ({ v with lines := goSplitNewline (s.replace "\r\n" "\n") } : Viewport).gotoBottom
        else { v with lines := goSplitNewline (s.replace "\r\n" "\n") }) := rfl

theorem setContent_of_yOffset_zero (v : Viewport) (s : String)
    (h : v.yOffset = 0) :
    v.setContent s = { v with lines := goSplitNewline (s.replace "\r\n" "\n") } := by
  rw [setContent_eq]
  rw [if_neg]
  have := goSplitNewline_length (s.replace "\r\n" "\n")
  omega

theorem setContent_gotoTop_yOffset (v : Viewport) (s : String)
    (hv : 0 ≤ v.yOffset) : ((v.setContent s).gotoTop).yOffset = 0 := by
  rw [setContent_eq]
  by_cases h : ((goSplitNewline (s.replace "\r\n" "\n")).length : Int) - 1 < v.yOffset
  · rw [if_pos h]
    apply gotoTop_yOffset
    exact setYOffset_nonneg _ _
  · rw [if_neg h]
    exact gotoTop_yOffset _ hv
theorem uvc_clear (env : Env) (m : Model) (s : String) :
    Model.updateViewportContent env { m with lastKey := s } =
      Option.map (fun x => { x with lastKey := s }) (m.updateViewportContent env) := by
  unfold Model.updateViewportContent
  have hpc : Model.getPageContent env { m with lastKey := s } =
      m.getPageContent env := rfl
  rw [hpc]
  cases m.getPageContent env with
  | none => rfl
  | some c => rfl

theorem navLR_clear (env : Env) (m : Model) (k : Key) :
    navLR env { m with lastKey := "" } k =
      Option.map (fun x => { x with lastKey := "" }) (navLR env m k) := by
  unfold navLR
  dsimp only
  by_cases hL : k = Key.left ∨ k = Key.char 'h'
  · simp only [if_pos hL]
    by_cases hv : m.viewingBlogEntry = false
    · simp only [if_pos hv]
      by_cases hc : 0 < m.currentPage
      · simp only [if_pos hc]
        exact uvc_clear env { m with currentPage := m.currentPage - 1 } ""
      · simp only [if_neg hc]; rfl
    · simp only [if_neg hv]; rfl
  · simp only [if_neg hL]
    by_cases hR : k = Key.right ∨ k = Key.char 'l'
    · simp only [if_pos hR]
      by_cases hv : m.viewingBlogEntry = false
      · simp only [if_pos hv]
        by_cases hc : m.currentPage < (m.pages.length : Int) - 1
        · simp only [if_pos hc]
          exact uvc_clear env { m with currentPage := m.currentPage + 1 } ""
        · simp only [if_neg hc]; rfl
      · simp only [if_neg hv]; rfl
    · simp only [if_neg hR]; rfl

theorem stepKey2_clear (env : Env) (m : Model) (k : Key)
    (hG : ¬ k = Key.char 'G') (hg : ¬ k = Key.char 'g') :
    stepKey2 env { m with lastKey := "" } k = stepKey2 env m k := by
  unfold stepKey2
  dsimp only
  simp only [if_neg hG, if_neg hg]

theorem stepKey2_lastKey {env : Env} {m : Model} {k : Key}
    (hG : ¬ k = Key.char 'G') (hg : ¬ k = Key.char 'g')
    {m' : Model} {q : Bool} (h : stepKey2 env m k = some (m', q)) :
    m'.lastKey = "" := by
  unfold stepKey2 at h
  dsimp only at h
  rw [if_neg hG, if_neg hg] at h
  by_cases hU : k = Key.ctrlU
  · rw [if_pos hU] at h
    injection h with h
    injection h with h1 h2
    rw [← h1]
  · rw [if_neg hU] at h
    by_cases hD : k = Key.ctrlD
    · rw [if_pos hD] at h
      injection h with h
      injection h with h1 h2
      rw [← h1]
    · rw [if_neg hD] at h
      by_cases hup : k = Key.up ∨ k = Key.char 'k'
      · rw [if_pos hup] at h
        by_cases hbi : m.currentPage = blogPage ∧ m.viewingBlogEntry = false
        · rw [if_pos hbi] at h
          by_cases hpos : (0 : Int) < m.selectedBlogEntry
          · rw [if_pos hpos] at h
            cases huvc : Model.updateViewportContent env
                { m with lastKey := "",
                         selectedBlogEntry := m.selectedBlogEntry - 1 } with
            | none => rw [huvc] at h; exact absurd h (by simp)
            | some m1 =>
              rw [huvc] at h
              injection h with h
              injection h with h1 h2
              rw [← h1]
              exact (uvc_fields huvc).2.2.2.2.2.2.2.2
          · rw [if_neg hpos] at h
            injection h with h
            injection h with h1 h2
            rw [← h1]
        · rw [if_neg hbi] at h
          injection h with h
          injection h with h1 h2
          rw [← h1]
      · rw [if_neg hup] at h
        by_cases hdn : k = Key.down ∨ k = Key.char 'j'
        · rw [if_pos hdn] at h
          by_cases hbi : m.currentPage = blogPage ∧ m.viewingBlogEntry = false
          · rw [if_pos hbi] at h
            by_cases hlt : m.selectedBlogEntry < (m.blogEntries.length : Int) - 1
            · rw [if_pos hlt] at h
              cases huvc : Model.updateViewportContent env
                  { m with lastKey := "",
                           selectedBlogEntry := m.selectedBlogEntry + 1 } with
              | none => rw [huvc] at h; exact absurd h (by simp)
              | some m1 =>
                rw [huvc] at h
                injection h with h
                injection h with h1 h2
                rw [← h1]
                exact (uvc_fields huvc).2.2.2.2.2.2.2.2
            · rw [if_neg hlt] at h
              injection h with h
              injection h with h1 h2
              rw [← h1]
          · rw [if_neg hbi] at h
            injection h with h
            injection h with h1 h2
            rw [← h1]
        · rw [if_neg hdn] at h
          by_cases hen : k = Key.enter
          · rw [if_pos hen] at h
            by_cases hbi : m.currentPage = blogPage ∧ m.viewingBlogEntry = false
            · rw [if_pos hbi] at h
              cases huvc : Model.updateViewportContent env
                  { m with lastKey := "", viewingBlogEntry := true } with
              | none => rw [huvc] at h; exact absurd h (by simp)
              | some m1 =>
                rw [huvc] at h
                injection h with h
                injection h with h1 h2
                rw [← h1]
                exact (uvc_fields huvc).2.2.2.2.2.2.2.2
            · rw [if_neg hbi] at h
              injection h with h
              injection h with h1 h2
              rw [← h1]
          · rw [if_neg hen] at h
            by_cases hbk : k = Key.backspace
            · rw [if_pos hbk] at h
              by_cases hvw : m.viewingBlogEntry = true
              · rw [if_pos hvw] at h
                cases huvc : Model.updateViewportContent env
                    { m with lastKey := "", viewingBlogEntry := false } with
                | none => rw [huvc] at h; exact absurd h (by simp)
                | some m1 =>
                  rw [huvc] at h
                  injection h with h
                  injection h with h1 h2
                  rw [← h1]
                  exact (uvc_fields huvc).2.2.2.2.2.2.2.2
              · rw [if_neg hvw] at h
                injection h with h
                injection h with h1 h2
                rw [← h1]
            · rw [if_neg hbk] at h
              injection h with h
              injection h with h1 h2
              rw [← h1]
theorem stepKey_clear (env : Env) (m : Model) (k : Key)
    (hq : ¬ (k = Key.ctrlC ∨ k = Key.char 'q'))
    (hG : ¬ k = Key.char 'G') (hg : ¬ k = Key.char 'g') :
    stepKey env m k = stepKey env { m with lastKey := "" } k := by
  unfold stepKey
  simp only [if_neg hq]
  rw [navLR_clear]
  cases hn : navLR env m k with
  | none => rfl
  | some x =>
    dsimp only [Option.map]
    exact (stepKey2_clear env x k hG hg).symm

theorem stepKey_lastKey {env : Env} {m : Model} {k : Key}
    (hq : ¬ (k = Key.ctrlC ∨ k = Key.char 'q'))
    (hG : ¬ k = Key.char 'G') (hg : ¬ k = Key.char 'g')
    {m' : Model} {q : Bool} (h : stepKey env m k = some (m', q)) :
    m'.lastKey = "" := by
  unfold stepKey at h
  rw [if_neg hq] at h
  cases hn : navLR env m k with
  | none => rw [hn] at h; exact absurd h (by simp)
  | some x =>
    rw [hn] at h
    exact stepKey2_lastKey hG hg h

theorem step_left_noop (env : Env) (m : Model) (hcp : m.currentPage = homePage) :
    stepKey env m Key.left = some ({ m with lastKey := "" }, false) := by
  unfold stepKey
  rw [if_neg (by decide : ¬ (Key.left = Key.ctrlC ∨ Key.left = Key.char 'q'))]
  have hn : navLR env m Key.left = some m := by
    unfold navLR
    rw [if_pos (Or.inl rfl : Key.left = Key.left ∨ Key.left = Key.char 'h')]
    by_cases hv : m.viewingBlogEntry = false
    · rw [if_pos hv,
        if_neg (show ¬ (0 : Int) < m.currentPage by rw [hcp]; decide)]
    · rw [if_neg hv]
  rw [hn]
  rfl

theorem step_right_noop (env : Env) (m : Model)
    (hpg : m.pages = ["Home", "Projects", "Blog", "About", "Contact"])
    (hcp : m.currentPage = contactPage) :
    stepKey env m Key.right = some ({ m with lastKey := "" }, false) := by
  unfold stepKey
  rw [if_neg (by decide : ¬ (Key.right = Key.ctrlC ∨ Key.right = Key.char 'q'))]
  have hn : navLR env m Key.right = some m := by
    unfold navLR
    rw [if_neg (by decide : ¬ (Key.right = Key.left ∨ Key.right = Key.char 'h')),
      if_pos (Or.inl rfl : Key.right = Key.right ∨ Key.right = Key.char 'l')]
    by_cases hv : m.viewingBlogEntry = false
    · rw [if_pos hv,
        if_neg (show ¬ m.currentPage < (m.pages.length : Int) - 1 by
          rw [hcp, hpg]; decide)]
    · rw [if_neg hv]
  rw [hn]
  rfl

theorem step_up_boundary (env : Env) (m : Model)
    (hcp : m.currentPage = blogPage) (hview : m.viewingBlogEntry = false)
    (h0 : m.selectedBlogEntry = 0) :
    stepKey env m Key.up = some ({ m with lastKey := "" }, false) := by
  unfold stepKey
  rw [if_neg (by decide : ¬ (Key.up = Key.ctrlC ∨ Key.up = Key.char 'q'))]
  have hn : navLR env m Key.up = some m := rfl
  rw [hn]
  unfold stepKey2
  dsimp only
  rw [if_neg (by decide : ¬ Key.up = Key.char 'G'),
    if_neg (by decide : ¬ Key.up = Key.char 'g'),
    if_neg (by decide : ¬ Key.up = Key.ctrlU),
    if_neg (by decide : ¬ Key.up = Key.ctrlD),
    if_pos (Or.inl rfl : Key.up = Key.up ∨ Key.up = Key.char 'k'),
    if_pos (⟨hcp, hview⟩ : m.currentPage = blogPage ∧ m.viewingBlogEntry = false),
    if_neg (show ¬ (0 : Int) < m.selectedBlogEntry by rw [h0]; decide)]

theorem step_down_boundary (env : Env) (m : Model)
    (hcp : m.currentPage = blogPage) (hview : m.viewingBlogEntry = false)
    (h0 : m.selectedBlogEntry = (m.blogEntries.length : Int) - 1) :
    stepKey env m Key.down = some ({ m with lastKey := "" }, false) := by
  unfold stepKey
  rw [if_neg (by decide : ¬ (Key.down = Key.ctrlC ∨ Key.down = Key.char 'q'))]
  have hn : navLR env m Key.down = some m := rfl
  rw [hn]
  unfold stepKey2
  dsimp only
  rw [if_neg (by decide : ¬ Key.down = Key.char 'G'),
    if_neg (by decide : ¬ Key.down = Key.char 'g'),
    if_neg (by decide : ¬ Key.down = Key.ctrlU),
    if_neg (by decide : ¬ Key.down = Key.ctrlD),
    if_neg (by decide : ¬ (Key.down = Key.up ∨ Key.down = Key.char 'k')),
    if_pos (Or.inl rfl : Key.down = Key.down ∨ Key.down = Key.char 'j'),
    if_pos (⟨hcp, hview⟩ : m.currentPage = blogPage ∧ m.viewingBlogEntry = false),
    if_neg (show ¬ m.selectedBlogEntry < (m.blogEntries.length : Int) - 1 by
      rw [h0]; exact lt_irrefl _)]
theorem step_upDown_spec (env : Env) (m : Model) (k : Key)
    (hk : k = Key.up ∨ k = Key.char 'k' ∨ k = Key.down ∨ k = Key.char 'j')
    (hcp : m.currentPage = blogPage) (hview : m.viewingBlogEntry = false)
    (hsel0 : 0 ≤ m.selectedBlogEntry)
    (hlt : m.selectedBlogEntry < (m.blogEntries.length : Int)) :
    ∃ m', stepKey env m k = some (m', false) ∧
      m'.currentPage = m.currentPage ∧ m'.viewingBlogEntry = false ∧
      m'.blogEntries = m.blogEntries ∧
      0 ≤ m'.selectedBlogEntry ∧
      m'.selectedBlogEntry < (m.blogEntries.length : Int) := by
  have hq : ¬ (k = Key.ctrlC ∨ k = Key.char 'q') := by
    rcases hk with h | h | h | h <;> subst h <;> decide
  have hn : navLR env m k = some m := by
    rcases hk with h | h | h | h <;> subst h <;> rfl
  have hbranch : ∀ msel : Int, 0 ≤ msel → msel < (m.blogEntries.length : Int) →
      ∃ m', (match Model.updateViewportContent env
          { m with lastKey := "", selectedBlogEntry := msel } with
        | none => none
        | some x => some (x, false)) = some (m', false) ∧
        m'.currentPage = m.currentPage ∧ m'.viewingBlogEntry = false ∧
        m'.blogEntries = m.blogEntries ∧
        0 ≤ m'.selectedBlogEntry ∧
        m'.selectedBlogEntry < (m.blogEntries.length : Int) := by
    intro msel h0 h1
    have hs : (Model.updateViewportContent env
        { m with lastKey := "", selectedBlogEntry := msel }).isSome :=
      uvc_isSome (Or.inl h0)
    obtain ⟨m1, hm1⟩ := Option.isSome_iff_exists.mp hs
    rw [hm1]
    obtain ⟨hw, hh, hcpf, hpgf, hbef, hsef, hvwf, hrdf, hlkf⟩ := uvc_fields hm1
    have hcp' : m1.currentPage = m.currentPage := hcpf
    have hbe' : m1.blogEntries = m.blogEntries := hbef
    have hse' : m1.selectedBlogEntry = msel := hsef
    have hvw' : m1.viewingBlogEntry = m.viewingBlogEntry := hvwf
    refine ⟨m1, rfl, hcp', hvw'.trans hview, hbe', ?_, ?_⟩
    · rw [hse']; omega
    · rw [hse']; omega
  unfold stepKey
  rw [if_neg hq, hn]
  unfold stepKey2
  dsimp only
  rcases hk with h | h | h | h <;> subst h
  · rw [if_neg (by decide : ¬ Key.up = Key.char 'G'),
      if_neg (by decide : ¬ Key.up = Key.char 'g'),
      if_neg (by decide : ¬ Key.up = Key.ctrlU),
      if_neg (by decide : ¬ Key.up = Key.ctrlD),
      if_pos (Or.inl rfl : Key.up = Key.up ∨ Key.up = Key.char 'k'),
      if_pos (⟨hcp, hview⟩ : m.currentPage = blogPage ∧ m.viewingBlogEntry = false)]
    by_cases hpos : (0 : Int) < m.selectedBlogEntry
    · rw [if_pos hpos]
      exact hbranch (m.selectedBlogEntry - 1) (by omega) (by omega)
    · rw [if_neg hpos]
      exact ⟨_, rfl, rfl, hview, rfl, hsel0, hlt⟩
  · rw [if_neg (by decide : ¬ Key.char 'k' = Key.char 'G'),
      if_neg (by decide : ¬ Key.char 'k' = Key.char 'g'),
      if_neg (by decide : ¬ Key.char 'k' = Key.ctrlU),
      if_neg (by decide : ¬ Key.char 'k' = Key.ctrlD),
      if_pos (Or.inr rfl : Key.char 'k' = Key.up ∨ Key.char 'k' = Key.char 'k'),
      if_pos (⟨hcp, hview⟩ : m.currentPage = blogPage ∧ m.viewingBlogEntry = false)]
    by_cases hpos : (0 : Int) < m.selectedBlogEntry
    · rw [if_pos hpos]
      exact hbranch (m.selectedBlogEntry - 1) (by omega) (by omega)
    · rw [if_neg hpos]
      exact ⟨_, rfl, rfl, hview, rfl, hsel0, hlt⟩
  · rw [if_neg (by decide : ¬ Key.down = Key.char 'G'),
      if_neg (by decide : ¬ Key.down = Key.char 'g'),
      if_neg (by decide : ¬ Key.down = Key.ctrlU),
      if_neg (by decide : ¬ Key.down = Key.ctrlD),
      if_neg (by decide : ¬ (Key.down = Key.up ∨ Key.down = Key.char 'k')),
      if_pos (Or.inl rfl : Key.down = Key.down ∨ Key.down = Key.char 'j'),
      if_pos (⟨hcp, hview⟩ : m.currentPage = blogPage ∧ m.viewingBlogEntry = false)]
    by_cases hlt2 : m.selectedBlogEntry < (m.blogEntries.length : Int) - 1
    · rw [if_pos hlt2]
      exact hbranch (m.selectedBlogEntry + 1) (by omega) (by omega)
    · rw [if_neg hlt2]
      exact ⟨_, rfl, rfl, hview, rfl, hsel0, hlt⟩
  · rw [if_neg (by decide : ¬ Key.char 'j' = Key.char 'G'),
      if_neg (by decide : ¬ Key.char 'j' = Key.char 'g'),
      if_neg (by decide : ¬ Key.char 'j' = Key.ctrlU),
      if_neg (by decide : ¬ Key.char 'j' = Key.ctrlD),
      if_neg (by decide : ¬ (Key.char 'j' = Key.up ∨ Key.char 'j' = Key.char 'k')),
      if_pos (Or.inr rfl : Key.char 'j' = Key.down ∨ Key.char 'j' = Key.char 'j'),
      if_pos (⟨hcp, hview⟩ : m.currentPage = blogPage ∧ m.viewingBlogEntry = false)]
    by_cases hlt2 : m.selectedBlogEntry < (m.blogEntries.length : Int) - 1
    · rw [if_pos hlt2]
      exact hbranch (m.selectedBlogEntry + 1) (by omega) (by omega)
    · rw [if_neg hlt2]
      exact ⟨_, rfl, rfl, hview, rfl, hsel0, hlt⟩
theorem step_enter_spec (env : Env) (m : Model)
    (hcp : m.currentPage = blogPage) (hview : m.viewingBlogEntry = false)
    (hsafe : 0 ≤ m.selectedBlogEntry ∨
      (m.blogEntries.length : Int) ≤ m.selectedBlogEntry) :
    ∃ m1, stepKey env m Key.enter = some (m1, false) ∧
      m1.currentPage = m.currentPage ∧ m1.viewingBlogEntry = true ∧
      m1.selectedBlogEntry = m.selectedBlogEntry ∧
      m1.blogEntries = m.blogEntries ∧ m1.lastKey = "" := by
  unfold stepKey
  rw [if_neg (by decide : ¬ (Key.enter = Key.ctrlC ∨ Key.enter = Key.char 'q'))]
  have hn : navLR env m Key.enter = some m := rfl
  rw [hn]
  unfold stepKey2
  dsimp only
  rw [if_neg (by decide : ¬ Key.enter = Key.char 'G'),
    if_neg (by decide : ¬ Key.enter = Key.char 'g'),
    if_neg (by decide : ¬ Key.enter = Key.ctrlU),
    if_neg (by decide : ¬ Key.enter = Key.ctrlD),
    if_neg (by decide : ¬ (Key.enter = Key.up ∨ Key.enter = Key.char 'k')),
    if_neg (by decide : ¬ (Key.enter = Key.down ∨ Key.enter = Key.char 'j')),
    if_pos (rfl : Key.enter = Key.enter),
    if_pos (⟨hcp, hview⟩ : m.currentPage = blogPage ∧ m.viewingBlogEntry = false)]
  have hs : (Model.updateViewportContent env
      { m with lastKey := "", viewingBlogEntry := true }).isSome :=
    uvc_isSome (Or.imp id id hsafe)
  obtain ⟨m1, hm1⟩ := Option.isSome_iff_exists.mp hs
  rw [hm1]
  obtain ⟨hw, hh, hcpf, hpgf, hbef, hsef, hvwf, hrdf, hlkf⟩ := uvc_fields hm1
  exact ⟨m1, rfl, hcpf, hvwf, hsef, hbef, hlkf⟩

theorem step_back_spec (env : Env) (m : Model)
    (hview : m.viewingBlogEntry = true) :
    ∃ m2, stepKey env m Key.backspace = some (m2, false) ∧
      m2.currentPage = m.currentPage ∧ m2.viewingBlogEntry = false ∧
      m2.selectedBlogEntry = m.selectedBlogEntry ∧
      m2.blogEntries = m.blogEntries ∧ m2.lastKey = "" := by
  unfold stepKey
  rw [if_neg (by decide :
    ¬ (Key.backspace = Key.ctrlC ∨ Key.backspace = Key.char 'q'))]
  have hn : navLR env m Key.backspace = some m := rfl
  rw [hn]
  unfold stepKey2
  dsimp only
  rw [if_neg (by decide : ¬ Key.backspace = Key.char 'G'),
    if_neg (by decide : ¬ Key.backspace = Key.char 'g'),
    if_neg (by decide : ¬ Key.backspace = Key.ctrlU),
    if_neg (by decide : ¬ Key.backspace = Key.ctrlD),
    if_neg (by decide : ¬ (Key.backspace = Key.up ∨ Key.backspace = Key.char 'k')),
    if_neg (by decide : ¬ (Key.backspace = Key.down ∨ Key.backspace = Key.char 'j')),
    if_neg (by decide : ¬ Key.backspace = Key.enter),
    if_pos (rfl : Key.backspace = Key.backspace),
    if_pos hview]
  have hp : (Model.getPageContent env
      { m with lastKey := "", viewingBlogEntry := false }).isSome :=
    pageContentCore_isSome_notViewing env _ _ _ _
  obtain ⟨c, hcnt, huvc⟩ := uvc_spec hp
  rw [huvc]
  exact ⟨_, rfl, rfl, rfl, rfl, rfl, rfl⟩
theorem step_g_pending (env : Env) (m : Model) (hlast : ¬ m.lastKey = "g") :
    stepKey env m (Key.char 'g') = some ({ m with lastKey := "g" }, false) := by
  unfold stepKey
  rw [if_neg (by decide :
    ¬ (Key.char 'g' = Key.ctrlC ∨ Key.char 'g' = Key.char 'q'))]
  have hn : navLR env m (Key.char 'g') = some m := rfl
  rw [hn]
  unfold stepKey2
  dsimp only
  rw [if_neg (by decide : ¬ Key.char 'g' = Key.char 'G'),
    if_pos (rfl : Key.char 'g' = Key.char 'g'),
    if_neg hlast]

theorem step_gg (env : Env) (m : Model) (hlast : m.lastKey = "g") :
    stepKey env m (Key.char 'g') =
      Option.map (fun x => ({ x with lastKey := "" }, false))
        ((ggPre m).updateViewportContent env) := by
  unfold stepKey
  rw [if_neg (by decide :
    ¬ (Key.char 'g' = Key.ctrlC ∨ Key.char 'g' = Key.char 'q'))]
  have hn : navLR env m (Key.char 'g') = some m := rfl
  rw [hn]
  unfold stepKey2 ggPre
  dsimp only
  rw [if_neg (by decide : ¬ Key.char 'g' = Key.char 'G'),
    if_pos (rfl : Key.char 'g' = Key.char 'g'),
    if_pos hlast]
  by_cases hbi : m.currentPage = blogPage ∧ m.viewingBlogEntry = false
  · simp only [if_pos hbi]
    cases h : Model.updateViewportContent env
        { m with viewport := m.viewport.gotoTop, selectedBlogEntry := 0 } with
    | none => rfl
    | some x => rfl
  · simp only [if_neg hbi]
    cases h : Model.updateViewportContent env
        { m with viewport := m.viewport.gotoTop } with
    | none => rfl
    | some x => rfl

theorem step_G (env : Env) (m : Model) :
    stepKey env m (Key.char 'G') =
      Option.map (fun content =>
          ({ gPre m with viewport := (gPre m).viewport.setContent content }, false))
        ((gPre m).getPageContent env) := by
  unfold stepKey
  rw [if_neg (by decide :
    ¬ (Key.char 'G' = Key.ctrlC ∨ Key.char 'G' = Key.char 'q'))]
  have hn : navLR env m (Key.char 'G') = some m := rfl
  rw [hn]
  unfold stepKey2 gPre
  dsimp only
  rw [if_pos (rfl : Key.char 'G' = Key.char 'G')]
  by_cases hbi : m.currentPage = blogPage ∧ m.viewingBlogEntry = false
  · simp only [if_pos hbi]
    cases h : Model.getPageContent env
        { m with selectedBlogEntry := (m.blogEntries.length : Int) - 1,
                 viewport := m.viewport.gotoBottom } with
    | none => rfl
    | some c => rfl
  · simp only [if_neg hbi]
    cases h : Model.getPageContent env
        { m with viewport := m.viewport.gotoBottom } with
    | none => rfl
    | some c => rfl
theorem clear_eq_self : ∀ {m : Model}, m.lastKey = "" → ({ m with lastKey := "" } : Model) = m := by
  intro m h
  cases m
  dsimp only at h
  rw [← h]

/-- Claim C9: for every caller width, renderMarkdownForDisplay clamps the
effective rendering width at the 40-column floor (width - 8, at least 40),
so the word-wrap width handed to the glamour renderer is positive; in
particular a caller width below the floor (such as 10) uses the floor. -/
theorem c9_width_floor : ∀ width : Int,
    40 ≤ displayWidth width ∧
    0 < glamourWordWrap (displayWidth width) ∧
    (width - 8 < 40 → displayWidth width = 40) := by
  intro w
  unfold displayWidth glamourWordWrap
  dsimp only
  by_cases h : w - 8 < 40
  · rw [if_pos h]
    exact ⟨by omega, by omega, fun _ => rfl⟩
  · rw [if_neg h]
    exact ⟨by omega, by omega, fun hc => absurd hc h⟩

/-- Witness for C9 at the concrete caller width 10 from the spec scenario. -/
theorem c9_width_floor_witness :
    40 ≤ displayWidth 10 ∧ 0 < glamourWordWrap (displayWidth 10) ∧
    displayWidth 10 = 40 :=
  ⟨(c9_width_floor 10).1, (c9_width_floor 10).2.1,
    (c9_width_floor 10).2.2 (by decide)⟩

/-- Counterexample to claim C1 as stated: from the fresh (pre-ready) session,
one move-right key event already advances currentPage from Home to Projects,
so key input before the first geometry report does change currentPage. -/
theorem c1_counterexample :
    testModel.ready = false ∧
    (stepKey envTest testModel Key.right).map (fun r => r.1.currentPage) =
      some projectsPage ∧
    projectsPage ≠ homePage :=
  ⟨rfl, by decide, by decide⟩

/-- Claim C1 (amended): a key event delivered before the first geometry
report cannot crash the step function and leaves the session not ready, so
View still renders the placeholder frame; however the navigation fields are
updated exactly as in a ready session (the key handler does not test ready),
as the counterexample shows. -/
theorem c1_before_ready (env : Env) (m : Model) (k : Key)
    (hInv : SessionInv m) (hready : m.ready = false) :
    ∃ m' q, stepKey env m k = some (m', q) ∧ m'.ready = false ∧
      Model.view env m' = "Loading..." := by
  obtain ⟨m', q, hstep, hInv', hrd⟩ := stepKey_spec env m k hInv
  refine ⟨m', q, hstep, hrd.trans hready, ?_⟩
  unfold Model.view
  rw [if_pos (hrd.trans hready)]

/-- Witness for C1 (amended) on the fresh test session and move-right. -/
theorem c1_before_ready_witness :
    SessionInv testModel ∧ testModel.ready = false ∧
    ∃ m' q, stepKey envTest testModel Key.right = some (m', q) ∧
      m'.ready = false ∧ Model.view envTest m' = "Loading..." :=
  ⟨by decide, rfl, c1_before_ready envTest testModel Key.right (by decide) rfl⟩

/-- Claim C6: on the Blog index, confirm (enter) followed by back (backspace)
returns to the Blog index with the same selection. -/
theorem c6_detail_roundtrip (env : Env) (m : Model)
    (hcp : m.currentPage = blogPage) (hview : m.viewingBlogEntry = false)
    (hsafe : 0 ≤ m.selectedBlogEntry ∨
      (m.blogEntries.length : Int) ≤ m.selectedBlogEntry) :
    ∃ m1 m2, stepKey env m Key.enter = some (m1, false) ∧
      m1.viewingBlogEntry = true ∧
      stepKey env m1 Key.backspace = some (m2, false) ∧
      m2.currentPage = blogPage ∧ m2.viewingBlogEntry = false ∧
      m2.selectedBlogEntry = m.selectedBlogEntry := by
  obtain ⟨m1, h1, hcp1, hvw1, hse1, hbe1, hlk1⟩ := step_enter_spec env m hcp hview hsafe
  obtain ⟨m2, h2, hcp2, hvw2, hse2, hbe2, hlk2⟩ := step_back_spec env m1 hvw1
  exact ⟨m1, m2, h1, hvw1, h2, hcp2.trans (hcp1.trans hcp), hvw2,
    hse2.trans hse1⟩

/-- Witness for C6 matching the spec scenario: two posts, selection on the
second one (index 1), enter then backspace keeps selection 1. -/
theorem c6_detail_roundtrip_witness :
    testBlogSel1.currentPage = blogPage ∧
    testBlogSel1.viewingBlogEntry = false ∧
    (0 ≤ testBlogSel1.selectedBlogEntry ∨
      (testBlogSel1.blogEntries.length : Int) ≤ testBlogSel1.selectedBlogEntry) ∧
    ∃ m1 m2, stepKey envTest testBlogSel1 Key.enter = some (m1, false) ∧
      m1.viewingBlogEntry = true ∧
      stepKey envTest m1 Key.backspace = some (m2, false) ∧
      m2.currentPage = blogPage ∧ m2.viewingBlogEntry = false ∧
      m2.selectedBlogEntry = testBlogSel1.selectedBlogEntry :=
  ⟨rfl, rfl, Or.inl (by decide),
    c6_detail_roundtrip envTest testBlogSel1 rfl rfl (Or.inl (by decide))⟩
/-- Claim C4: from any state reachable in a session, currentPage stays within
[Home, Contact] under every finite sequence of move-left/move-right inputs;
move-left on the first page and move-right on the last page only clear a
pending chord (the general chord-cancel rule) and change nothing else, so on
a chord-free state they are exact no-ops. -/
theorem c4_page_bounds (env : Env) (entries : List BlogEntry) (w h : Int)
    (m : Model) (ks : List Key)
    (hentries : 1 ≤ entries.length)
    (hreach : Reachable env (newModel entries w h) m)
    (hks : ∀ k ∈ ks,
      k = Key.left ∨ k = Key.char 'h' ∨ k = Key.right ∨ k = Key.char 'l') :
    (∃ m', foldKeys env m ks = some m' ∧
      0 ≤ m'.currentPage ∧ m'.currentPage ≤ 4) ∧
    (m.currentPage = homePage →
      stepKey env m Key.left = some ({ m with lastKey := "" }, false) ∧
      (m.lastKey = "" → stepKey env m Key.left = some (m, false))) ∧
    (m.currentPage = contactPage →
      stepKey env m Key.right = some ({ m with lastKey := "" }, false) ∧
      (m.lastKey = "" → stepKey env m Key.right = some (m, false))) := by
  have hInv : SessionInv m :=
    reachable_inv (newModel_inv entries w h hentries) hreach
  refine ⟨?_, ?_, ?_⟩
  · obtain ⟨m', hm', hInv'⟩ := foldKeys_inv env ks m hInv
    exact ⟨m', hm', hInv'.2.1, hInv'.2.2.1⟩
  · intro hcp
    refine ⟨step_left_noop env m hcp, fun hlk => ?_⟩
    rw [step_left_noop env m hcp, clear_eq_self hlk]
  · intro hcp
    refine ⟨step_right_noop env m hInv.1 hcp, fun hlk => ?_⟩
    rw [step_right_noop env m hInv.1 hcp, clear_eq_self hlk]

/-- Witness for C4: fresh two-post session, sequence right-right-left stays
in range; move-left at Home is an exact no-op. -/
theorem c4_page_bounds_witness :
    1 ≤ ([entryA, entryB] : List BlogEntry).length ∧
    (∃ m', foldKeys envTest testModel [Key.right, Key.right, Key.left] = some m' ∧
      0 ≤ m'.currentPage ∧ m'.currentPage ≤ 4) ∧
    (stepKey envTest testModel Key.left =
      some ({ testModel with lastKey := "" }, false) ∧
    (testModel.lastKey = "" →
      stepKey envTest testModel Key.left = some (testModel, false))) := by
  have h := c4_page_bounds envTest [entryA, entryB] 80 24 testModel
    [Key.right, Key.right, Key.left] (by decide) (Reachable.refl)
    (by intro k hk; fin_cases hk <;> simp)
  exact ⟨by decide, h.1, h.2.1 rfl⟩

/-- Claim C5: on the Blog index with a non-empty post list and an in-range
selection, every finite sequence of move-up/move-down inputs keeps
selectedIndex inside [0, count-1]; move-up at index 0 and move-down at the
last index leave the selection (and everything but a pending chord)
unchanged. -/
theorem c5_selection_bounds (env : Env) (m : Model) (ks : List Key)
    (hcp : m.currentPage = blogPage) (hview : m.viewingBlogEntry = false)
    (hsel0 : 0 ≤ m.selectedBlogEntry)
    (hselLt : m.selectedBlogEntry < (m.blogEntries.length : Int))
    (hks : ∀ k ∈ ks,
      k = Key.up ∨ k = Key.char 'k' ∨ k = Key.down ∨ k = Key.char 'j') :
    (∃ m', foldKeys env m ks = some m' ∧
      0 ≤ m'.selectedBlogEntry ∧
      m'.selectedBlogEntry < (m.blogEntries.length : Int)) ∧
    (m.selectedBlogEntry = 0 →
      stepKey env m Key.up = some ({ m with lastKey := "" }, false)) ∧
    (m.selectedBlogEntry = (m.blogEntries.length : Int) - 1 →
      stepKey env m Key.down = some ({ m with lastKey := "" }, false)) := by
  refine ⟨?_, step_up_boundary env m hcp hview, step_down_boundary env m hcp hview⟩
  have main : ∀ ks1 : List Key, (∀ k ∈ ks1,
        k = Key.up ∨ k = Key.char 'k' ∨ k = Key.down ∨ k = Key.char 'j') →
      ∀ m1 : Model, m1.currentPage = blogPage → m1.viewingBlogEntry = false →
        m1.blogEntries = m.blogEntries → 0 ≤ m1.selectedBlogEntry →
        m1.selectedBlogEntry < (m.blogEntries.length : Int) →
        ∃ m', foldKeys env m1 ks1 = some m' ∧
          0 ≤ m'.selectedBlogEntry ∧
          m'.selectedBlogEntry < (m.blogEntries.length : Int) := by
    intro ks1
    induction ks1 with
    | nil => exact fun _ m1 _ _ _ h0 h1 => ⟨m1, rfl, h0, h1⟩
    | cons k ks1 ih =>
      intro hks1 m1 hcp1 hvw1 hbe1 h0 h1
      obtain ⟨m2, hstep, hcp2, hvw2, hbe2, h02, h12⟩ :=
        step_upDown_spec env m1 k (hks1 k (by simp)) hcp1 hvw1 h0 (by rw [hbe1]; exact h1)
      obtain ⟨m', hm', h0', h1'⟩ := ih (fun k hk => hks1 k (by simp [hk]))
        m2 (hcp2.trans hcp1) hvw2 (hbe2.trans hbe1) h02 (by rw [hbe1] at h12; exact h12)
      refine ⟨m', ?_, h0', h1'⟩
      unfold foldKeys at hm' ⊢
      rw [List.foldlM_cons, hstep]
      simpa using hm'
  exact main ks hks m hcp hview rfl hsel0 hselLt

/-- Witness for C5: Blog index over two posts, three move-down inputs keep
the selection at index 1; boundary no-ops at index 0 and at the last index. -/
theorem c5_selection_bounds_witness :
    testBlogModel.currentPage = blogPage ∧
    testBlogModel.viewingBlogEntry = false ∧
    (∃ m', foldKeys envTest testBlogModel [Key.down, Key.down, Key.down] = some m' ∧
      0 ≤ m'.selectedBlogEntry ∧
      m'.selectedBlogEntry < (testBlogModel.blogEntries.length : Int)) ∧
    (stepKey envTest testBlogModel Key.up =
      some ({ testBlogModel with lastKey := "" }, false)) ∧
    (stepKey envTest testBlogSel1 Key.down =
      some ({ testBlogSel1 with lastKey := "" }, false)) := by
  have h := c5_selection_bounds envTest testBlogModel [Key.down, Key.down, Key.down]
    rfl rfl (by decide) (by decide) (by intro k hk; fin_cases hk <;> simp)
  have h2 := c5_selection_bounds envTest testBlogSel1 [] rfl rfl
    (by decide) (by decide) (by intro k hk; simp at hk)
  exact ⟨rfl, rfl, h.1, h.2.1 rfl, h2.2.2 (by decide)⟩
/-- Claim C8: GetBlogPosts is total and never empty. Every error branch
(Getwd failure, missing directory, ReadDir failure) substitutes the fixed
fallback set, zero published posts also substitutes it, the fallback set has
the fixed size 3, and confirm on a Blog index backed by the fallback set
enters detail mode normally. `sortSlice` ranges over arbitrary
implementations of the Go sort.Slice contract. -/
theorem c8_provider_total :
    (∀ sortSlice now fs, 1 ≤ (GetBlogPosts sortSlice now fs).length) ∧
    getFallbackBlogPosts.length = 3 ∧
    (∀ sortSlice now fs,
      fs.getwdOk = false ∨ fs.dirExists = false ∨ fs.readDirOk = false →
      GetBlogPosts sortSlice now fs = getFallbackBlogPosts) ∧
    (∀ sortSlice now fs,
      sortSlice (fun a b => a.date.after b.date) (collectPosts now fs.files) = [] →
      GetBlogPosts sortSlice now fs = getFallbackBlogPosts) ∧
    (∀ (env : Env) (m : Model), m.blogEntries = getFallbackBlogPosts →
      m.currentPage = blogPage → m.viewingBlogEntry = false →
      0 ≤ m.selectedBlogEntry →
      ∃ m1, stepKey env m Key.enter = some (m1, false) ∧
        m1.viewingBlogEntry = true) := by
  have hfb : getFallbackBlogPosts.length = 3 := rfl
  refine ⟨?_, hfb, ?_, ?_, ?_⟩
  · intro sortSlice now fs
    unfold GetBlogPosts
    by_cases h1 : fs.getwdOk = false
    · rw [if_pos h1]; omega
    · rw [if_neg h1]
      by_cases h2 : fs.dirExists = false
      · rw [if_pos h2]; omega
      · rw [if_neg h2]
        by_cases h3 : fs.readDirOk = false
        · rw [if_pos h3]; omega
        · rw [if_neg h3]
          dsimp only
          by_cases h4 : ((sortSlice (fun a b => a.date.after b.date)
              (collectPosts now fs.files)).map (fun p =>
                ({ title := p.title, summary := p.summary, content := p.content,
                   date := p.date.format } : BlogEntry))).length = 0
          · rw [if_pos h4]; omega
          · rw [if_neg h4]; omega
  · intro sortSlice now fs h
    unfold GetBlogPosts
    by_cases h1 : fs.getwdOk = false
    · rw [if_pos h1]
    · rw [if_neg h1]
      by_cases h2 : fs.dirExists = false
      · rw [if_pos h2]
      · rw [if_neg h2]
        by_cases h3 : fs.readDirOk = false
        · rw [if_pos h3]
        · rcases h with h | h | h
          · exact absurd h h1
          · exact absurd h h2
          · exact absurd h h3
  · intro sortSlice now fs h
    unfold GetBlogPosts
    by_cases h1 : fs.getwdOk = false
    · rw [if_pos h1]
    · rw [if_neg h1]
      by_cases h2 : fs.dirExists = false
      · rw [if_pos h2]
      · rw [if_neg h2]
        by_cases h3 : fs.readDirOk = false
        · rw [if_pos h3]
        · rw [if_neg h3]
          dsimp only
          rw [h]
          rfl
  · intro env m hbe hcp hview hsel
    obtain ⟨m1, h1, _, hvw1, _, _, _⟩ :=
      step_enter_spec env m hcp hview (Or.inl hsel)
    exact ⟨m1, h1, hvw1⟩

/-- Witness for C8: a failing ReadDir and a directory whose only post is
unpublished both yield the fallback set; enter works on a fallback-backed
Blog index. -/
theorem c8_provider_total_witness :
    1 ≤ (GetBlogPosts idSortSlice dateNow fsErr).length ∧
    getFallbackBlogPosts.length = 3 ∧
    GetBlogPosts idSortSlice dateNow fsErr = getFallbackBlogPosts ∧
    GetBlogPosts idSortSlice dateNow fsUnpublished = getFallbackBlogPosts ∧
    ∃ m1, stepKey envTest fallbackModel Key.enter = some (m1, false) ∧
      m1.viewingBlogEntry = true :=
  ⟨c8_provider_total.1 idSortSlice dateNow fsErr,
    c8_provider_total.2.1,
    c8_provider_total.2.2.1 idSortSlice dateNow fsErr (Or.inr (Or.inr rfl)),
    c8_provider_total.2.2.2.1 idSortSlice dateNow fsUnpublished (by decide),
    c8_provider_total.2.2.2.2 envTest fallbackModel rfl rfl rfl (by decide)⟩

/-- Claim C10: the detail-content function returns the fixed placeholder
whenever the selection reaches past the post list (for every state); for a
selection inside [0, count) the list access is in bounds and content is
produced; and every reachable session state keeps the selection inside
[0, count), so the detail view never indexes out of range. -/
theorem c10_detail_index_safe :
    (∀ (env : Env) (m : Model),
      (m.blogEntries.length : Int) ≤ m.selectedBlogEntry →
      m.getBlogEntryContent env =
        some (env.contentStyleRender "Blog entry not found")) ∧
    (∀ (env : Env) (m : Model), 0 ≤ m.selectedBlogEntry →
      m.selectedBlogEntry < (m.blogEntries.length : Int) →
      (goIndex m.blogEntries m.selectedBlogEntry).isSome ∧
      (m.getBlogEntryContent env).isSome) ∧
    (∀ (env : Env) (m0 m : Model), SessionInv m0 → Reachable env m0 m →
      0 ≤ m.selectedBlogEntry ∧
      m.selectedBlogEntry < (m.blogEntries.length : Int)) := by
  refine ⟨?_, ?_, ?_⟩
  · intro env m h
    unfold Model.getBlogEntryContent blogEntryContentCore
    rw [if_pos h]
  · intro env m h0 h1
    exact ⟨goIndex_isSome h0 h1,
      blogEntryContentCore_isSome env m.width m.selectedBlogEntry m.blogEntries
        (Or.inl h0)⟩
  · intro env m0 m h0 hr
    have h := reachable_inv h0 hr
    exact ⟨h.2.2.2.2.1, h.2.2.2.2.2⟩

/-- Witness for C10: a detail state whose selection (5) reaches past the
3-post fallback list yields the placeholder; an in-range state accesses the
list; the fresh session satisfies the bounds. -/
theorem c10_detail_index_safe_witness :
    overModel.getBlogEntryContent envTest =
      some (envTest.contentStyleRender "Blog entry not found") ∧
    ((goIndex testBlogModel.blogEntries testBlogModel.selectedBlogEntry).isSome ∧
      (testBlogModel.getBlogEntryContent envTest).isSome) ∧
    (0 ≤ testModel.selectedBlogEntry ∧
      testModel.selectedBlogEntry < (testModel.blogEntries.length : Int)) :=
  ⟨c10_detail_index_safe.1 envTest overModel (by decide),
    c10_detail_index_safe.2.1 envTest testBlogModel (by decide) (by decide),
    c10_detail_index_safe.2.2 envTest testModel testModel (by decide)
      Reachable.refl⟩
/-- Counterexample to claim C2 as stated: with a pending chord (lastKey = g),
the go-to-bottom key (shift+G) runs its full effect but returns before the
chord reset line, so lastKey is still "g" afterwards instead of "". -/
theorem c2_counterexample :
    chordModel.ready = true ∧ chordModel.lastKey = "g" ∧
    (stepKey envTest chordModel (Key.char 'G')).map (fun r => r.1.lastKey) =
      some "g" ∧
    ("g" : String) ≠ "" :=
  ⟨rfl, rfl, by decide, by decide⟩

/-- Claim C2 (amended): from a ready state with a pending chord, every
recognized action other than the chord key and other than go-to-bottom
behaves exactly as without the pending chord (it is not swallowed) and
leaves the chord cleared; the go-to-bottom key also executes its full
effect, but leaves the pending chord set (lastKey stays "g"), as the
counterexample shows. -/
theorem c2_chord_cancel (env : Env) (m : Model)
    (hready : m.ready = true) (hg : m.lastKey = "g") :
    (∀ k ∈ cancelKeys,
      stepKey env m k = stepKey env { m with lastKey := "" } k ∧
      ∀ m' q, stepKey env m k = some (m', q) → m'.lastKey = "") ∧
    (∀ m' q, stepKey env { m with lastKey := "" } (Key.char 'G') = some (m', q) →
      stepKey env m (Key.char 'G') = some ({ m' with lastKey := "g" }, q)) := by
  constructor
  · intro k hk
    have h3 : ¬ (k = Key.ctrlC ∨ k = Key.char 'q') ∧
        ¬ k = Key.char 'G' ∧ ¬ k = Key.char 'g' := by
      fin_cases hk <;> exact ⟨by decide, by decide, by decide⟩
    exact ⟨stepKey_clear env m k h3.1 h3.2.1 h3.2.2,
      fun m' q h => stepKey_lastKey h3.1 h3.2.1 h3.2.2 h⟩
  · intro m' q h
    rw [step_G] at h ⊢
    unfold gPre at h ⊢
    dsimp only at h ⊢
    by_cases hbi : m.currentPage = blogPage ∧ m.viewingBlogEntry = false
    · simp only [if_pos hbi] at h ⊢
      have hpc : Model.getPageContent env ({ m with lastKey := "", selectedBlogEntry := (m.blogEntries.length : Int) - 1, viewport := m.viewport.gotoBottom } : Model) = Model.getPageContent env ({ m with selectedBlogEntry := (m.blogEntries.length : Int) - 1, viewport := m.viewport.gotoBottom } : Model) := rfl
      rw [hpc, Option.map_eq_some'] at h
      obtain ⟨c, hc, hfc⟩ := h
      rw [hc]
      dsimp only [Option.map]
      injection hfc with h1 h2
      rw [← h1, ← h2, hg]
    · simp only [if_neg hbi] at h ⊢
      have hpc : Model.getPageContent env ({ m with lastKey := "", viewport := m.viewport.gotoBottom } : Model) = Model.getPageContent env ({ m with viewport := m.viewport.gotoBottom } : Model) := rfl
      rw [hpc, Option.map_eq_some'] at h
      obtain ⟨c, hc, hfc⟩ := h
      rw [hc]
      dsimp only [Option.map]
      injection hfc with h1 h2
      rw [← h1, ← h2, hg]

/-- Witness for C2 (amended) on the chord-pending test session: move-right
acts exactly as without the chord and clears it, and shift+G keeps it set. -/
theorem c2_chord_cancel_witness :
    chordModel.ready = true ∧ chordModel.lastKey = "g" ∧
    Key.right ∈ cancelKeys ∧
    (stepKey envTest chordModel Key.right =
      stepKey envTest { chordModel with lastKey := "" } Key.right ∧
     ∀ m' q, stepKey envTest chordModel Key.right = some (m', q) →
       m'.lastKey = "") ∧
    (∀ m' q, stepKey envTest { chordModel with lastKey := "" } (Key.char 'G') =
        some (m', q) →
      stepKey envTest chordModel (Key.char 'G') =
        some ({ m' with lastKey := "g" }, q)) := by
  have h := c2_chord_cancel envTest chordModel rfl rfl
  exact ⟨rfl, rfl, by decide, h.1 Key.right (by decide), h.2⟩
theorem setContent_lines (v : Viewport) (s : String) :
    (v.setContent s).lines = goSplitNewline (s.replace "\r\n" "\n") := by
  rw [setContent_eq]
  by_cases h : ((goSplitNewline (s.replace "\r\n" "\n")).length : Int) - 1 < v.yOffset
  · rw [if_pos h]; rfl
  · rw [if_neg h]

theorem ggPre_fields (m : Model) :
    (ggPre m).width = m.width ∧ (ggPre m).currentPage = m.currentPage ∧
    (ggPre m).viewingBlogEntry = m.viewingBlogEntry ∧
    (ggPre m).blogEntries = m.blogEntries ∧
    (ggPre m).ready = m.ready ∧ (ggPre m).lastKey = m.lastKey ∧
    (ggPre m).viewport = m.viewport.gotoTop ∧
    (ggPre m).selectedBlogEntry =
      (if m.currentPage = blogPage ∧ m.viewingBlogEntry = false then 0
       else m.selectedBlogEntry) := by
  unfold ggPre
  dsimp only
  by_cases hbi : m.currentPage = blogPage ∧ m.viewingBlogEntry = false
  · rw [if_pos hbi]
    refine ⟨rfl, rfl, rfl, rfl, rfl, rfl, rfl, ?_⟩
    rw [if_pos hbi]
  · rw [if_neg hbi]
    refine ⟨rfl, rfl, rfl, rfl, rfl, rfl, rfl, ?_⟩
    rw [if_neg hbi]

theorem uvc_stable (env : Env) (y : Model) (c : String)
    (hct : y.getPageContent env = some c)
    (hlines : y.viewport.lines = goSplitNewline (c.replace "\r\n" "\n"))
    (hy0 : y.viewport.yOffset = 0) :
    Model.updateViewportContent env y = some y := by
  unfold Model.updateViewportContent
  rw [hct]
  dsimp only
  have h1 : y.viewport.setContent c = y.viewport := by
    rw [setContent_of_yOffset_zero _ _ hy0, ← hlines]
  rw [h1, gotoTop_of_yOffset_zero _ hy0]

/-- Claim C7: completing the go-to-top chord is idempotent. From any ready
state with the chord pending and a well-formed viewport offset, one
completion scrolls the offset to 0 (and on the Blog index resets the
selection to 0), and running the whole chord again (pending key, then
completion) returns exactly the same state. -/
theorem c7_gotoTop_idempotent (env : Env) (m : Model)
    (hready : m.ready = true) (hlast : m.lastKey = "g")
    (hvp : 0 ≤ m.viewport.yOffset)
    (hsafe : 0 ≤ m.selectedBlogEntry ∨
      (m.blogEntries.length : Int) ≤ m.selectedBlogEntry) :
    ∃ t, stepKey env m (Key.char 'g') = some (t, false) ∧
      t.viewport.yOffset = 0 ∧
      (m.currentPage = blogPage ∧ m.viewingBlogEntry = false →
        t.selectedBlogEntry = 0) ∧
      ∃ t1, stepKey env t (Key.char 'g') = some (t1, false) ∧
        stepKey env t1 (Key.char 'g') = some (t, false) := by
  obtain ⟨hgw, hgcp, hgvw, hgbe, hgrd, hglk, hgvp, hgse⟩ := ggPre_fields m
  have hsafe2 : 0 ≤ (ggPre m).selectedBlogEntry ∨
      ((ggPre m).blogEntries.length : Int) ≤ (ggPre m).selectedBlogEntry := by
    rw [hgse, hgbe]
    by_cases hbi : m.currentPage = blogPage ∧ m.viewingBlogEntry = false
    · rw [if_pos hbi]; exact Or.inl (le_refl 0)
    · rw [if_neg hbi]; exact hsafe
  have hpcs : ((ggPre m).getPageContent env).isSome :=
    pageContentCore_isSome env _ _ _ _ _ hsafe2
  obtain ⟨c, hc, huvc⟩ := uvc_spec hpcs
  have hs : ((ggPre m).updateViewportContent env).isSome := by rw [huvc]; rfl
  obtain ⟨x, hx⟩ := Option.isSome_iff_exists.mp hs
  have hxeq : x =
      { ggPre m with viewport := ((ggPre m).viewport.setContent c).gotoTop } :=
    Option.some.inj (hx.symm.trans huvc)
  have hxvp : x.viewport = ((ggPre m).viewport.setContent c).gotoTop := by
    rw [hxeq]
  have hxcp : x.currentPage = m.currentPage := by rw [hxeq]; exact hgcp
  have hxvw : x.viewingBlogEntry = m.viewingBlogEntry := by rw [hxeq]; exact hgvw
  have hxse : x.selectedBlogEntry = (ggPre m).selectedBlogEntry := by rw [hxeq]
  have hvp2 : 0 ≤ (ggPre m).viewport.yOffset := by
    rw [hgvp, gotoTop_yOffset m.viewport hvp]
  have hy0 : x.viewport.yOffset = 0 := by
    rw [hxvp]
    exact setContent_gotoTop_yOffset _ c hvp2
  have hstep1 : stepKey env m (Key.char 'g') =
      some (({ x with lastKey := "" } : Model), false) := by
    rw [step_gg env m hlast, hx]
    rfl
  refine ⟨{ x with lastKey := "" }, hstep1, hy0, ?_, ?_⟩
  · intro hbi
    show x.selectedBlogEntry = 0
    rw [hxse, hgse, if_pos hbi]
  · have htlk : ¬ ({ x with lastKey := "" } : Model).lastKey = "g" := by
      intro hcontra
      exact (by decide : ¬ ("" : String) = "g") hcontra
    refine ⟨{ x with lastKey := "g" }, step_g_pending env _ htlk, ?_⟩
    have ht1lk : ({ x with lastKey := "g" } : Model).lastKey = "g" := rfl
    rw [step_gg env _ ht1lk]
    have hggt1 : ggPre ({ x with lastKey := "g" } : Model) =
        ({ x with lastKey := "g" } : Model) := by
      unfold ggPre
      dsimp only
      simp only [hxcp, hxvw]
      by_cases hbi : m.currentPage = blogPage ∧ m.viewingBlogEntry = false
      · simp only [if_pos hbi]
        have hxsel0 : x.selectedBlogEntry = 0 := by
          rw [hxse, hgse, if_pos hbi]
        rw [gotoTop_of_yOffset_zero _ hy0, hxsel0]
      · simp only [if_neg hbi]
        rw [gotoTop_of_yOffset_zero _ hy0]
    rw [hggt1]
    have hct : Model.getPageContent env ({ x with lastKey := "g" } : Model) =
        some c := by
      have hpg : Model.getPageContent env ({ x with lastKey := "g" } : Model) =
          Model.getPageContent env x := rfl
      rw [hpg]
      unfold Model.getPageContent
      rw [hxeq]
      exact hc
    have hlines : ({ x with lastKey := "g" } : Model).viewport.lines =
        goSplitNewline (c.replace "\r\n" "\n") := by
      show x.viewport.lines = _
      rw [hxvp, gotoTop_lines, setContent_lines]
    rw [uvc_stable env ({ x with lastKey := "g" } : Model) c hct hlines hy0]
    rfl
/-- Witness for C7 on a chord-pending Blog index with selection 1. -/
theorem c7_gotoTop_idempotent_witness :
    chordBlogModel.ready = true ∧ chordBlogModel.lastKey = "g" ∧
    0 ≤ chordBlogModel.viewport.yOffset ∧
    ∃ t, stepKey envTest chordBlogModel (Key.char 'g') = some (t, false) ∧
      t.viewport.yOffset = 0 ∧
      (chordBlogModel.currentPage = blogPage ∧
        chordBlogModel.viewingBlogEntry = false → t.selectedBlogEntry = 0) ∧
      ∃ t1, stepKey envTest t (Key.char 'g') = some (t1, false) ∧
        stepKey envTest t1 (Key.char 'g') = some (t, false) :=
  ⟨rfl, rfl, by decide,
    c7_gotoTop_idempotent envTest chordBlogModel rfl rfl (by decide)
      (Or.inl (by decide))⟩
